import Mathlib

/-!
# Verification of the OnekotAPI statistics aggregation and leaderboard engine

Shallow embedding of the period-window computation (`getPeriodDates` in
`src/utils/helpers.js`), the statistics aggregation (`calculateStats` in
`src/services/statsService.js` together with `Stats.updateOrCreateStats` in
`src/models/Stats.js`), and the leaderboard / pagination pipeline
(`getDistanceLeaderboard`, `getAreaLeaderboard` in `src/services/runService.js`,
`calculatePagination` in `src/utils/helpers.js`).

Modelling conventions:
* Instants are integers counting milliseconds since the Unix epoch, exactly the
  internal time value of a JavaScript `Date`.  The server's local time zone is
  modelled as UTC, so `setHours`/`getDay`/`getMonth`/... act on the UTC civil
  calendar (the proleptic Gregorian calendar mandated by ECMAScript).
* `daysFromCivil`/`civilFromDays` model the ECMAScript day-number/civil-date
  correspondence (MakeDay, YearFromTime, MonthFromTime, DateFromTime).  The
  round-trip and range theorems proved below certify that `civilFromDays` is
  the inverse of `daysFromCivil`, which pins both to the Gregorian calendar.
* Numeric record fields (distances in meters, durations in seconds, speeds)
  are modelled as rationals; the JavaScript source computes with IEEE doubles,
  and the claims under verification are about the algebraic structure of the
  computations, not float rounding.
* Mongo queries are modelled as list operations on an in-memory record set:
  `find` with a predicate is `List.filter`, `$group` groups keys in order of
  first appearance, `$sort` is a stable sort (Mongo leaves the relative order
  of ties to the store; the stable model realises one admissible order), and
  `findOneAndUpdate` with `upsert: true` is an insert-or-replace by key.
-/

deriving instance DecidableEq for Except

attribute [local semireducible] Rat.add Rat.mul Rat.inv Rat.sub

namespace Onekot

/-! ## Calendar model (milliseconds, day numbers, civil dates) -/

def msPerDay : Int := 86400000

/-- Day number of an instant: `floor(t / msPerDay)`, as in ECMAScript Day(t). -/
def dayNumber (t : Int) : Int := t / msPerDay

/-- Millisecond of day of an instant, in `[0, msPerDay)`. -/
def msOfDay (t : Int) : Int := t % msPerDay

/-- Civil date (year, month 1..12, day 1..31) to day number.  Standard
    era-based Gregorian conversion; months out of `[1,12]` and days out of
    range are normalised exactly as the JavaScript `Date` constructor does
    (linearly in the day, and month 13 meaning January of the next year). -/
def daysFromCivil (y m d : Int) : Int :=
  let y2 := if m ≤ 2 then y - 1 else y
  let era := y2 / 400
  let yoe := y2 - era * 400
  let mp := if m > 2 then m - 3 else m + 9
  let doy := (153 * mp + 2) / 5 + d - 1
  let doe := yoe * 365 + yoe / 4 - yoe / 100 + doy
  era * 146097 + doe - 719468

/-- Year-of-era formula, on naturals: `doe` is the day-of-era in `[0, 146097)`. -/
def yoeF (doe : Nat) : Nat := (doe - doe / 1460 + doe / 36524 - doe / 146096) / 365

/-- First day-of-era of year-of-era `y` (era years start March 1). -/
def yearStart (y : Nat) : Nat := 365 * y + y / 4 - y / 100

/-- Day-of-(era-)year in `[0, 365]` of a day-of-era. -/
def doyOf (doe : Nat) : Nat := doe - yearStart (yoeF doe)

/-- Shifted month (0 = March .. 11 = February) of a day-of-year. -/
def mpOfDoy (doy : Nat) : Nat := (5 * doy + 2) / 153

/-- First day-of-year of shifted month `mp`. -/
def monthStartN (mp : Nat) : Nat := (153 * mp + 2) / 5

/-- Day of month (1-based) of a day-of-year. -/
def dOfDoy (doy : Nat) : Nat := doy - monthStartN (mpOfDoy doy) + 1

/-- Civil month (1..12) of a day-of-year. -/
def mOfDoy (doy : Nat) : Nat :=
  if mpOfDoy doy < 10 then mpOfDoy doy + 3 else mpOfDoy doy - 9

/-- Day number to civil date (year, month 1..12, day 1..31); inverse of
    `daysFromCivil` (proved below), modelling ECMAScript YearFromTime /
    MonthFromTime / DateFromTime. -/
def civilFromDays (day : Int) : Int × Int × Int :=
  let era := (day + 719468) / 146097
  let doe := (day + 719468 - era * 146097).toNat
  let doy := doyOf doe
  let m := mOfDoy doy
  ((yoeF doe : Int) + era * 400 + (if m ≤ 2 then 1 else 0), (m : Int), (dOfDoy doy : Int))

/-- Gregorian leap-year predicate. -/
def isLeap (y : Int) : Bool := (y % 4 == 0 && y % 100 != 0) || y % 400 == 0

/-- Length of a calendar month in days. -/
def daysInMonth (y m : Int) : Int :=
  if m = 2 then (if isLeap y then 29 else 28)
  else if m = 4 ∨ m = 6 ∨ m = 9 ∨ m = 11 then 30 else 31

/-- Length of a calendar year in days. -/
def daysInYear (y : Int) : Int := if isLeap y then 366 else 365

/-- Year of the civil date of an instant (models `Date.prototype.getFullYear`). -/
def yearOf (t : Int) : Int := (civilFromDays (dayNumber t)).1

/-- Month (1..12) of the civil date of an instant; `getMonth()` is this minus 1. -/
def monthOf (t : Int) : Int := (civilFromDays (dayNumber t)).2.1

/-- Models `new Date(y, mIdx, d, 0, 0, 0, ms)` with a 0-based month index
    `mIdx` (as in JavaScript) and the time of day folded into `ms`. -/
def jsDateMs (y mIdx d ms : Int) : Int := daysFromCivil y (mIdx + 1) d * msPerDay + ms

/-! ### Bounded facts about the civil conversion, by finite check -/

/-- Leap test on a year-of-era representative in `[1, 400]`. -/
def leapYY (yy : Nat) : Bool := (yy % 4 == 0 && yy % 100 != 0) || yy % 400 == 0

/-- Number of days of year-of-era `y` (March 1 to the next February end). -/
def yearLen (y : Nat) : Nat := 365 + (if leapYY (y + 1) then 1 else 0)

def yearCheck (y : Nat) : Bool :=
  decide (yoeF (yearStart y) = y) &&
  decide (yoeF (yearStart y + yearLen y - 1) = y) &&
  decide (yearStart y + yearLen y = if y = 399 then 146097 else yearStart (y + 1))

set_option maxRecDepth 4000 in
theorem yearCheck_all : ∀ y : Nat, y < 400 → yearCheck y = true := by decide

def monthCheck (doy : Nat) : Bool :=
  decide (mpOfDoy doy ≤ 11) && decide (monthStartN (mpOfDoy doy) ≤ doy) &&
  decide (1 ≤ mOfDoy doy) && decide (mOfDoy doy ≤ 12) &&
  decide (1 ≤ dOfDoy doy) &&
  decide (dOfDoy doy ≤ if mOfDoy doy = 2 then 29
    else if mOfDoy doy = 4 ∨ mOfDoy doy = 6 ∨ mOfDoy doy = 9 ∨ mOfDoy doy = 11 then 30
    else 31) &&
  decide (mOfDoy doy = 2 ∧ dOfDoy doy = 29 → doy = 365) &&
  decide ((if mOfDoy doy > 2 then mOfDoy doy - 3 else mOfDoy doy + 9) = mpOfDoy doy) &&
  decide (monthStartN (mpOfDoy doy) + dOfDoy doy - 1 = doy) &&
  decide (2 < mOfDoy doy → doy < 306) && decide (mOfDoy doy ≤ 2 → 306 ≤ doy) &&
  decide (doy < monthStartN (mpOfDoy doy + 1)) &&
  decide (2 < mOfDoy doy →
    monthStartN (mpOfDoy doy + 1) - monthStartN (mpOfDoy doy) =
      if mOfDoy doy = 4 ∨ mOfDoy doy = 6 ∨ mOfDoy doy = 9 ∨ mOfDoy doy = 11 then 30 else 31)

set_option maxRecDepth 4000 in
theorem monthCheck_all : ∀ doy : Nat, doy < 366 → monthCheck doy = true := by decide

/-- The facts of `monthCheck`, as propositions. -/
theorem monthFacts (doy : Nat) (h : doy ≤ 365) :
    mpOfDoy doy ≤ 11 ∧ monthStartN (mpOfDoy doy) ≤ doy ∧
    1 ≤ mOfDoy doy ∧ mOfDoy doy ≤ 12 ∧
    1 ≤ dOfDoy doy ∧
    (dOfDoy doy ≤ if mOfDoy doy = 2 then 29
      else if mOfDoy doy = 4 ∨ mOfDoy doy = 6 ∨ mOfDoy doy = 9 ∨ mOfDoy doy = 11 then 30
      else 31) ∧
    (mOfDoy doy = 2 ∧ dOfDoy doy = 29 → doy = 365) ∧
    (if mOfDoy doy > 2 then mOfDoy doy - 3 else mOfDoy doy + 9) = mpOfDoy doy ∧
    monthStartN (mpOfDoy doy) + dOfDoy doy - 1 = doy ∧
    (2 < mOfDoy doy → doy < 306) ∧ (mOfDoy doy ≤ 2 → 306 ≤ doy) ∧
    doy < monthStartN (mpOfDoy doy + 1) ∧
    (2 < mOfDoy doy →
      monthStartN (mpOfDoy doy + 1) - monthStartN (mpOfDoy doy) =
        if mOfDoy doy = 4 ∨ mOfDoy doy = 6 ∨ mOfDoy doy = 9 ∨ mOfDoy doy = 11 then 30
        else 31) := by
  have hc := monthCheck_all doy (by omega)
  simp only [monthCheck, Bool.and_eq_true, decide_eq_true_eq] at hc
  tauto

theorem gF_step (x : Nat) :
    x - x / 1460 + x / 36524 - x / 146096 ≤
      (x + 1) - (x + 1) / 1460 + (x + 1) / 36524 - (x + 1) / 146096 := by
  omega

theorem gF_mono (a b : Nat) (h : a ≤ b) :
    a - a / 1460 + a / 36524 - a / 146096 ≤ b - b / 1460 + b / 36524 - b / 146096 := by
  induction b with
  | zero => omega
  | succ k ih =>
    rcases Nat.lt_succ_iff_lt_or_eq.mp (Nat.lt_succ_of_le h) with h' | h'
    · exact le_trans (ih (by omega)) (gF_step k)
    · omega

theorem yoeF_mono (a b : Nat) (h : a ≤ b) : yoeF a ≤ yoeF b :=
  Nat.div_le_div_right (gF_mono a b h)

theorem yearCover : ∀ doe : Nat, doe < 146097 →
    ∃ y, y ≤ 399 ∧ yearStart y ≤ doe ∧ doe < yearStart y + yearLen y := by
  intro doe
  induction doe with
  | zero =>
    intro _
    refine ⟨0, by norm_num, by norm_num [yearStart], ?_⟩
    norm_num [yearStart, yearLen, leapYY]
  | succ k ih =>
    intro hk
    obtain ⟨y, hy, h1, h2⟩ := ih (by omega)
    by_cases hend : k + 1 < yearStart y + yearLen y
    · exact ⟨y, hy, by omega, hend⟩
    · have hkk : k + 1 = yearStart y + yearLen y := by omega
      have hchain := yearCheck_all y (by omega)
      simp only [yearCheck, Bool.and_eq_true, decide_eq_true_eq] at hchain
      by_cases h399 : y = 399
      · subst h399
        have hcap : yearStart 399 + yearLen 399 = 146097 := by decide
        omega
      · have hch : yearStart y + yearLen y = yearStart (y + 1) := by
          have := hchain.2
          rwa [if_neg h399] at this
        have hlen : 365 ≤ yearLen (y + 1) := by unfold yearLen; split <;> omega
        exact ⟨y + 1, by omega, by omega, by omega⟩

/-- Correctness of the year-of-era formula on one era. -/
theorem yoeF_correct (doe : Nat) (h : doe < 146097) :
    yearStart (yoeF doe) ≤ doe ∧ doe < yearStart (yoeF doe) + yearLen (yoeF doe) ∧
      yoeF doe ≤ 399 := by
  obtain ⟨y, hy, h1, h2⟩ := yearCover doe h
  have hb := yearCheck_all y (by omega)
  simp only [yearCheck, Bool.and_eq_true, decide_eq_true_eq] at hb
  have m1 : yoeF (yearStart y) ≤ yoeF doe := yoeF_mono _ _ h1
  have m2 : yoeF doe ≤ yoeF (yearStart y + yearLen y - 1) := yoeF_mono _ _ (by omega)
  have e1 := hb.1.1
  have e2 := hb.1.2
  have heq : yoeF doe = y := by omega
  rw [heq]
  exact ⟨h1, h2, hy⟩

/-- The year-of-era length identity: `yearLen` matches the `yearStart` steps. -/
theorem yearLen_eq (y : Nat) (h : y ≤ 399) :
    yearStart y + yearLen y = if y = 399 then 146097 else yearStart (y + 1) := by
  have hb := yearCheck_all y (by omega)
  simp only [yearCheck, Bool.and_eq_true, decide_eq_true_eq] at hb
  exact hb.2

/-! ### Evaluation of `daysFromCivil` in era/year-of-era form -/

theorem daysFromCivil_ge3 (era yoe m d : Int) (hy : 0 ≤ yoe) (hy' : yoe ≤ 399)
    (hm : 3 ≤ m) (hm' : m ≤ 13) :
    daysFromCivil (era * 400 + yoe) m d =
      era * 146097 + (yoe * 365 + yoe / 4 - yoe / 100 + ((153 * (m - 3) + 2) / 5 + d - 1))
        - 719468 := by
  simp only [daysFromCivil]
  rw [if_neg (by omega : ¬ m ≤ 2), if_pos (by omega : m > 2)]
  omega

theorem daysFromCivil_le2 (era yoe m d : Int) (hy : 0 ≤ yoe) (hy' : yoe ≤ 399)
    (hm : 1 ≤ m) (hm' : m ≤ 2) :
    daysFromCivil (era * 400 + yoe + 1) m d =
      era * 146097 + (yoe * 365 + yoe / 4 - yoe / 100 + ((153 * (m + 9) + 2) / 5 + d - 1))
        - 719468 := by
  simp only [daysFromCivil]
  rw [if_pos (by omega : m ≤ 2), if_neg (by omega : ¬ m > 2)]
  omega

theorem isLeap_iff (y : Int) :
    isLeap y = true ↔ ((y % 4 = 0 ∧ y % 100 ≠ 0) ∨ y % 400 = 0) := by
  unfold isLeap
  simp [Bool.or_eq_true, Bool.and_eq_true, beq_iff_eq, bne_iff_ne]

theorem leapYY_iff (k : Nat) :
    leapYY k = true ↔ ((k % 4 = 0 ∧ k % 100 ≠ 0) ∨ k % 400 = 0) := by
  unfold leapYY
  simp [Bool.or_eq_true, Bool.and_eq_true, beq_iff_eq, bne_iff_ne]

theorem yearLen_bounds (y : Nat) : 365 ≤ yearLen y ∧ yearLen y ≤ 366 := by
  unfold yearLen
  split <;> omega

theorem yearStart_cast (k : Nat) :
    ((yearStart k : Nat) : Int) = (k : Int) * 365 + (k : Int) / 4 - (k : Int) / 100 := by
  unfold yearStart
  omega

theorem monthStartN_cast (k : Nat) :
    ((monthStartN k : Nat) : Int) = (153 * (k : Int) + 2) / 5 := by
  unfold monthStartN
  omega

/-- `isLeap` on `era * 400 + k` only depends on `k` (mod-400 congruence). -/
theorem isLeap_shift (era : Int) (k : Nat) :
    isLeap (era * 400 + k) = leapYY k := by
  by_cases h : leapYY k = true
  · rw [h, isLeap_iff]
    rw [leapYY_iff] at h
    omega
  · rw [Bool.not_eq_true] at h
    rw [h, Bool.eq_false_iff, Ne, isLeap_iff]
    rw [Bool.eq_false_iff, Ne, leapYY_iff] at h
    omega

/-! ### The spec of `civilFromDays`, proved branch by branch -/

set_option maxHeartbeats 2000000 in
theorem civilParts_ge3 (day era : Int) (n : Nat)
    (hcast : (n : Int) = day + 719468 - era * 146097) (hn146 : n < 146097)
    (hm3 : 2 < mOfDoy (doyOf n)) :
    1 ≤ (mOfDoy (doyOf n) : Int) ∧ (mOfDoy (doyOf n) : Int) ≤ 12 ∧
    1 ≤ (dOfDoy (doyOf n) : Int) ∧
    (dOfDoy (doyOf n) : Int) ≤
      daysInMonth (era * 400 + (yoeF n : Int)) (mOfDoy (doyOf n)) ∧
    daysFromCivil (era * 400 + (yoeF n : Int)) (mOfDoy (doyOf n)) (dOfDoy (doyOf n)) = day ∧
    daysFromCivil (era * 400 + (yoeF n : Int)) (mOfDoy (doyOf n)) 1 ≤ day ∧
    day < daysFromCivil (era * 400 + (yoeF n : Int)) ((mOfDoy (doyOf n) : Int) + 1) 1 ∧
    daysFromCivil (era * 400 + (yoeF n : Int)) ((mOfDoy (doyOf n) : Int) + 1) 1 -
        daysFromCivil (era * 400 + (yoeF n : Int)) (mOfDoy (doyOf n)) 1 =
      daysInMonth (era * 400 + (yoeF n : Int)) (mOfDoy (doyOf n)) ∧
    daysFromCivil (era * 400 + (yoeF n : Int)) 1 1 ≤ day ∧
    day < daysFromCivil (era * 400 + (yoeF n : Int) + 1) 1 1 ∧
    daysFromCivil (era * 400 + (yoeF n : Int) + 1) 1 1 -
        daysFromCivil (era * 400 + (yoeF n : Int)) 1 1 =
      daysInYear (era * 400 + (yoeF n : Int)) ∧
    daysFromCivil (era * 400 + (yoeF n : Int)) 12 31 =
      daysFromCivil (era * 400 + (yoeF n : Int) + 1) 1 1 - 1 := by
  obtain ⟨hys, hylen, hy399⟩ := yoeF_correct n hn146
  obtain ⟨hyl365, hyl366⟩ := yearLen_bounds (yoeF n)
  have hdoy_def : doyOf n = n - yearStart (yoeF n) := rfl
  have hdoy365 : doyOf n ≤ 365 := by omega
  obtain ⟨hmp11, hms, hm1, hm12, hd1, hdim, hd29, hmpinv, hrecon, h306, h306b, hnext, htab⟩ :=
    monthFacts (doyOf n) hdoy365
  have hmp_eq : mOfDoy (doyOf n) - 3 = mpOfDoy (doyOf n) := by
    have h := hmpinv
    rwa [if_pos hm3] at h
  have h306' := h306 hm3
  have htab' := htab hm3
  have hysc := yearStart_cast (yoeF n)
  have hmsc0 := monthStartN_cast (mpOfDoy (doyOf n))
  have hmsc1 := monthStartN_cast (mpOfDoy (doyOf n) + 1)
  -- evaluations of daysFromCivil at the relevant arguments
  have e_md := daysFromCivil_ge3 era (yoeF n) (mOfDoy (doyOf n)) (dOfDoy (doyOf n))
    (by omega) (by omega) (by omega) (by omega)
  have e_m1 := daysFromCivil_ge3 era (yoeF n) (mOfDoy (doyOf n)) 1
    (by omega) (by omega) (by omega) (by omega)
  have e_m2 := daysFromCivil_ge3 era (yoeF n) ((mOfDoy (doyOf n) : Int) + 1) 1
    (by omega) (by omega) (by omega) (by omega)
  have e_dec := daysFromCivil_ge3 era (yoeF n) 12 31
    (by omega) (by omega) (by omega) (by omega)
  have e_j2 := daysFromCivil_le2 era (yoeF n) 1 1
    (by omega) (by omega) (by omega) (by omega)
  -- cast links between the Int month-start divisions and the Nat tables
  have hlink0 : (153 * ((mOfDoy (doyOf n) : Int) - 3) + 2) / 5 =
      ((monthStartN (mpOfDoy (doyOf n)) : Nat) : Int) := by
    rw [hmsc0]; omega
  have hlink1 : (153 * ((mOfDoy (doyOf n) : Int) + 1 - 3) + 2) / 5 =
      ((monthStartN (mpOfDoy (doyOf n) + 1) : Nat) : Int) := by
    rw [hmsc1]; omega
  -- daysInMonth value in this branch
  have hdm : daysInMonth (era * 400 + (yoeF n : Int)) (mOfDoy (doyOf n)) =
        ((monthStartN (mpOfDoy (doyOf n) + 1) : Nat) : Int) -
          ((monthStartN (mpOfDoy (doyOf n)) : Nat) : Int) ∧
      (dOfDoy (doyOf n) : Int) ≤
        daysInMonth (era * 400 + (yoeF n : Int)) (mOfDoy (doyOf n)) := by
    have hd' := hdim
    rw [if_neg (by omega : ¬ mOfDoy (doyOf n) = 2)] at hd'
    by_cases h46 : mOfDoy (doyOf n) = 4 ∨ mOfDoy (doyOf n) = 6 ∨
        mOfDoy (doyOf n) = 9 ∨ mOfDoy (doyOf n) = 11
    · have hv : daysInMonth (era * 400 + (yoeF n : Int)) (mOfDoy (doyOf n)) = 30 := by
        unfold daysInMonth
        rw [if_neg (by omega : ¬ ((mOfDoy (doyOf n) : Int)) = 2), if_pos (by omega :
          ((mOfDoy (doyOf n) : Int)) = 4 ∨ ((mOfDoy (doyOf n) : Int)) = 6 ∨
          ((mOfDoy (doyOf n) : Int)) = 9 ∨ ((mOfDoy (doyOf n) : Int)) = 11)]
      rw [if_pos h46] at htab' hd'
      constructor
      · rw [hv]; omega
      · rw [hv]; omega
    · have hv : daysInMonth (era * 400 + (yoeF n : Int)) (mOfDoy (doyOf n)) = 31 := by
        unfold daysInMonth
        rw [if_neg (by omega : ¬ ((mOfDoy (doyOf n) : Int)) = 2), if_neg (by omega :
          ¬ (((mOfDoy (doyOf n) : Int)) = 4 ∨ ((mOfDoy (doyOf n) : Int)) = 6 ∨
          ((mOfDoy (doyOf n) : Int)) = 9 ∨ ((mOfDoy (doyOf n) : Int)) = 11))]
      rw [if_neg h46] at htab' hd'
      constructor
      · rw [hv]; omega
      · rw [hv]; omega
  -- Jan 1 of the current year
  have e_j1 : daysFromCivil (era * 400 + (yoeF n : Int)) 1 1 ≤ day ∧
      daysFromCivil (era * 400 + (yoeF n : Int) + 1) 1 1 -
        daysFromCivil (era * 400 + (yoeF n : Int)) 1 1 =
      daysInYear (era * 400 + (yoeF n : Int)) := by
    have hshift : era * 400 + ((yoeF n : Nat) : Int) = era * 400 + (yoeF n : Int) := rfl
    by_cases hy0 : yoeF n = 0
    · have harg : (era - 1) * 400 + 399 + 1 = era * 400 + (yoeF n : Int) := by omega
      have e := daysFromCivil_le2 (era - 1) 399 1 1
        (by norm_num) (by norm_num) (by norm_num) (by norm_num)
      rw [harg] at e
      have hdiy : daysInYear (era * 400 + (yoeF n : Int)) = 366 := by
        unfold daysInYear
        rw [show era * 400 + (yoeF n : Int) = era * 400 + ((0 : Nat) : Int) by omega,
          isLeap_shift era 0]
        norm_num [leapYY]
      constructor
      · omega
      · rw [hdiy]; omega
    · have harg : era * 400 + ((yoeF n : Int) - 1) + 1 = era * 400 + (yoeF n : Int) := by
        omega
      have e := daysFromCivil_le2 era ((yoeF n : Int) - 1) 1 1
        (by omega) (by omega) (by norm_num) (by norm_num)
      rw [harg] at e
      rw [show ((yoeF n : Int) - 1) = ((yoeF n - 1 : Nat) : Int) from by omega] at e
      have hysc' := yearStart_cast (yoeF n - 1)
      have hchain : yearStart (yoeF n - 1) + yearLen (yoeF n - 1) = yearStart (yoeF n) := by
        have h' := yearLen_eq (yoeF n - 1) (by omega)
        rw [if_neg (by omega : ¬ yoeF n - 1 = 399),
          show yoeF n - 1 + 1 = yoeF n from by omega] at h'
        exact h'
      obtain ⟨hb1, hb2⟩ := yearLen_bounds (yoeF n - 1)
      have hylen_eq : yearLen (yoeF n - 1) = 365 + (if leapYY (yoeF n) then 1 else 0) := by
        unfold yearLen
        rw [show yoeF n - 1 + 1 = yoeF n from by omega]
      have hshift2 : isLeap (era * 400 + (yoeF n : Int)) = leapYY (yoeF n) :=
        isLeap_shift era (yoeF n)
      by_cases hL : leapYY (yoeF n) = true
      · rw [if_pos hL] at hylen_eq
        have hdiy : daysInYear (era * 400 + (yoeF n : Int)) = 366 := by
          unfold daysInYear
          rw [hshift2, if_pos hL]
        constructor
        · omega
        · rw [hdiy]; omega
      · rw [if_neg hL] at hylen_eq
        have hdiy : daysInYear (era * 400 + (yoeF n : Int)) = 365 := by
          unfold daysInYear
          rw [hshift2, if_neg hL]
        constructor
        · omega
        · rw [hdiy]; omega
  refine ⟨by omega, by omega, by omega, hdm.2, by omega, by omega, by omega, ?_,
    e_j1.1, by omega, e_j1.2, by omega⟩
  rw [hdm.1]
  omega

set_option maxHeartbeats 2000000 in
theorem civilParts_le2 (day era : Int) (n : Nat)
    (hcast : (n : Int) = day + 719468 - era * 146097) (hn146 : n < 146097)
    (hm2 : mOfDoy (doyOf n) ≤ 2) :
    1 ≤ (mOfDoy (doyOf n) : Int) ∧ (mOfDoy (doyOf n) : Int) ≤ 12 ∧
    1 ≤ (dOfDoy (doyOf n) : Int) ∧
    (dOfDoy (doyOf n) : Int) ≤
      daysInMonth (era * 400 + (yoeF n : Int) + 1) (mOfDoy (doyOf n)) ∧
    daysFromCivil (era * 400 + (yoeF n : Int) + 1) (mOfDoy (doyOf n)) (dOfDoy (doyOf n))
      = day ∧
    daysFromCivil (era * 400 + (yoeF n : Int) + 1) (mOfDoy (doyOf n)) 1 ≤ day ∧
    day < daysFromCivil (era * 400 + (yoeF n : Int) + 1) ((mOfDoy (doyOf n) : Int) + 1) 1 ∧
    daysFromCivil (era * 400 + (yoeF n : Int) + 1) ((mOfDoy (doyOf n) : Int) + 1) 1 -
        daysFromCivil (era * 400 + (yoeF n : Int) + 1) (mOfDoy (doyOf n)) 1 =
      daysInMonth (era * 400 + (yoeF n : Int) + 1) (mOfDoy (doyOf n)) ∧
    daysFromCivil (era * 400 + (yoeF n : Int) + 1) 1 1 ≤ day ∧
    day < daysFromCivil (era * 400 + (yoeF n : Int) + 1 + 1) 1 1 ∧
    daysFromCivil (era * 400 + (yoeF n : Int) + 1 + 1) 1 1 -
        daysFromCivil (era * 400 + (yoeF n : Int) + 1) 1 1 =
      daysInYear (era * 400 + (yoeF n : Int) + 1) ∧
    daysFromCivil (era * 400 + (yoeF n : Int) + 1) 12 31 =
      daysFromCivil (era * 400 + (yoeF n : Int) + 1 + 1) 1 1 - 1 := by
  obtain ⟨hys, hylen, hy399⟩ := yoeF_correct n hn146
  obtain ⟨hyl365, hyl366⟩ := yearLen_bounds (yoeF n)
  have hdoy_def : doyOf n = n - yearStart (yoeF n) := rfl
  have hdoy365 : doyOf n ≤ 365 := by omega
  obtain ⟨hmp11, hms, hm1, hm12, hd1, hdim, hd29, hmpinv, hrecon, h306, h306b, hnext, htab⟩ :=
    monthFacts (doyOf n) hdoy365
  have hmp_eq : mOfDoy (doyOf n) + 9 = mpOfDoy (doyOf n) := by
    have h := hmpinv
    rwa [if_neg (by omega)] at h
  have h306' := h306b hm2
  have hysc := yearStart_cast (yoeF n)
  have hmsc0 := monthStartN_cast (mpOfDoy (doyOf n))
  have e_md := daysFromCivil_le2 era (yoeF n) (mOfDoy (doyOf n)) (dOfDoy (doyOf n))
    (by omega) (by omega) (by omega) (by omega)
  have e_m1 := daysFromCivil_le2 era (yoeF n) (mOfDoy (doyOf n)) 1
    (by omega) (by omega) (by omega) (by omega)
  have e_j1 := daysFromCivil_le2 era (yoeF n) 1 1
    (by omega) (by omega) (by norm_num) (by norm_num)
  have hlink0 : (153 * ((mOfDoy (doyOf n) : Int) + 9) + 2) / 5 =
      ((monthStartN (mpOfDoy (doyOf n)) : Nat) : Int) := by
    rw [hmsc0]; omega
  have hshift2 : isLeap (era * 400 + (yoeF n : Int) + 1) = leapYY (yoeF n + 1) := by
    rw [show era * 400 + (yoeF n : Int) + 1 = era * 400 + ((yoeF n + 1 : Nat) : Int) from by
      push_cast; ring]
    exact isLeap_shift era (yoeF n + 1)
  have hylen_eq : yearLen (yoeF n) = 365 + (if leapYY (yoeF n + 1) then 1 else 0) := rfl
  -- conjunct: day of month within the month length
  have hdm4 : (dOfDoy (doyOf n) : Int) ≤
      daysInMonth (era * 400 + (yoeF n : Int) + 1) (mOfDoy (doyOf n)) := by
    by_cases hmc : mOfDoy (doyOf n) = 1
    · have hv : daysInMonth (era * 400 + (yoeF n : Int) + 1) (mOfDoy (doyOf n)) = 31 := by
        unfold daysInMonth
        rw [if_neg (by omega : ¬ ((mOfDoy (doyOf n) : Int)) = 2), if_neg (by omega :
          ¬ (((mOfDoy (doyOf n) : Int)) = 4 ∨ ((mOfDoy (doyOf n) : Int)) = 6 ∨
          ((mOfDoy (doyOf n) : Int)) = 9 ∨ ((mOfDoy (doyOf n) : Int)) = 11))]
      have hd' := hdim
      rw [if_neg (by omega : ¬ mOfDoy (doyOf n) = 2)] at hd'
      rw [if_neg (by omega : ¬ (mOfDoy (doyOf n) = 4 ∨ mOfDoy (doyOf n) = 6 ∨
        mOfDoy (doyOf n) = 9 ∨ mOfDoy (doyOf n) = 11))] at hd'
      omega
    · have hm2' : mOfDoy (doyOf n) = 2 := by omega
      have hd' := hdim
      rw [if_pos hm2'] at hd'
      by_cases hL : leapYY (yoeF n + 1) = true
      · have hv : daysInMonth (era * 400 + (yoeF n : Int) + 1) (mOfDoy (doyOf n)) = 29 := by
          unfold daysInMonth
          rw [if_pos (by omega : ((mOfDoy (doyOf n) : Int)) = 2), hshift2, if_pos hL]
        omega
      · have hv : daysInMonth (era * 400 + (yoeF n : Int) + 1) (mOfDoy (doyOf n)) = 28 := by
          unfold daysInMonth
          rw [if_pos (by omega : ((mOfDoy (doyOf n) : Int)) = 2), hshift2, if_neg hL]
        rw [if_neg hL] at hylen_eq
        have hne : ¬ dOfDoy (doyOf n) = 29 := by
          intro hc
          have := hd29 ⟨hm2', hc⟩
          omega
        omega
  -- conjuncts: next-month boundary and month length
  have hblock78 :
      day < daysFromCivil (era * 400 + (yoeF n : Int) + 1) ((mOfDoy (doyOf n) : Int) + 1) 1 ∧
      daysFromCivil (era * 400 + (yoeF n : Int) + 1) ((mOfDoy (doyOf n) : Int) + 1) 1 -
          daysFromCivil (era * 400 + (yoeF n : Int) + 1) (mOfDoy (doyOf n)) 1 =
        daysInMonth (era * 400 + (yoeF n : Int) + 1) (mOfDoy (doyOf n)) := by
    by_cases hmc : mOfDoy (doyOf n) = 1
    · rw [show ((mOfDoy (doyOf n) : Int) + 1) = 2 from by omega]
      have e_m2 := daysFromCivil_le2 era (yoeF n) 2 1
        (by omega) (by omega) (by norm_num) (by norm_num)
      have h11 : mpOfDoy (doyOf n) + 1 = 11 := by omega
      rw [h11] at hnext
      have h337 : monthStartN 11 = 337 := by decide
      have hv : daysInMonth (era * 400 + (yoeF n : Int) + 1) (mOfDoy (doyOf n)) = 31 := by
        unfold daysInMonth
        rw [if_neg (by omega : ¬ ((mOfDoy (doyOf n) : Int)) = 2), if_neg (by omega :
          ¬ (((mOfDoy (doyOf n) : Int)) = 4 ∨ ((mOfDoy (doyOf n) : Int)) = 6 ∨
          ((mOfDoy (doyOf n) : Int)) = 9 ∨ ((mOfDoy (doyOf n) : Int)) = 11))]
      constructor
      · omega
      · rw [hv]; omega
    · have hm2' : mOfDoy (doyOf n) = 2 := by omega
      rw [show ((mOfDoy (doyOf n) : Int) + 1) = 3 from by omega]
      by_cases hy399c : yoeF n = 399
      · have e_m2 := daysFromCivil_ge3 (era + 1) 0 3 1
          (by norm_num) (by norm_num) (by norm_num) (by norm_num)
        rw [show (era + 1) * 400 + (0 : Int) = era * 400 + (yoeF n : Int) + 1 from by
          omega] at e_m2
        have hL400 : leapYY (yoeF n + 1) = true := by
          rw [show yoeF n + 1 = 400 from by omega]; decide
        have hv : daysInMonth (era * 400 + (yoeF n : Int) + 1) (mOfDoy (doyOf n)) = 29 := by
          unfold daysInMonth
          rw [if_pos (by omega : ((mOfDoy (doyOf n) : Int)) = 2), hshift2, if_pos hL400]
        constructor
        · omega
        · rw [hv]; omega
      · have e_m2 := daysFromCivil_ge3 era ((yoeF n + 1 : Nat) : Int) 3 1
          (by omega) (by omega) (by norm_num) (by norm_num)
        rw [show era * 400 + ((yoeF n + 1 : Nat) : Int) = era * 400 + (yoeF n : Int) + 1 from
          by push_cast; ring] at e_m2
        have hysc1 := yearStart_cast (yoeF n + 1)
        have hchain : yearStart (yoeF n) + yearLen (yoeF n) = yearStart (yoeF n + 1) := by
          have h' := yearLen_eq (yoeF n) (by omega)
          rwa [if_neg hy399c] at h'
        constructor
        · omega
        · by_cases hL : leapYY (yoeF n + 1) = true
          · have hv : daysInMonth (era * 400 + (yoeF n : Int) + 1) (mOfDoy (doyOf n))
                = 29 := by
              unfold daysInMonth
              rw [if_pos (by omega : ((mOfDoy (doyOf n) : Int)) = 2), hshift2, if_pos hL]
            rw [if_pos hL] at hylen_eq
            rw [hv]; omega
          · have hv : daysInMonth (era * 400 + (yoeF n : Int) + 1) (mOfDoy (doyOf n))
                = 28 := by
              unfold daysInMonth
              rw [if_pos (by omega : ((mOfDoy (doyOf n) : Int)) = 2), hshift2, if_neg hL]
            rw [if_neg hL] at hylen_eq
            rw [hv]; omega
  -- conjuncts: next-year boundary, year length, December 31
  have hblock10 :
      day < daysFromCivil (era * 400 + (yoeF n : Int) + 1 + 1) 1 1 ∧
      daysFromCivil (era * 400 + (yoeF n : Int) + 1 + 1) 1 1 -
          daysFromCivil (era * 400 + (yoeF n : Int) + 1) 1 1 =
        daysInYear (era * 400 + (yoeF n : Int) + 1) ∧
      daysFromCivil (era * 400 + (yoeF n : Int) + 1) 12 31 =
        daysFromCivil (era * 400 + (yoeF n : Int) + 1 + 1) 1 1 - 1 := by
    by_cases hy399c : yoeF n = 399
    · have e_n1 := daysFromCivil_le2 (era + 1) 0 1 1
        (by norm_num) (by norm_num) (by norm_num) (by norm_num)
      rw [show (era + 1) * 400 + (0 : Int) + 1 = era * 400 + (yoeF n : Int) + 1 + 1 from by
        omega] at e_n1
      have e_dec := daysFromCivil_ge3 (era + 1) 0 12 31
        (by norm_num) (by norm_num) (by norm_num) (by norm_num)
      rw [show (era + 1) * 400 + (0 : Int) = era * 400 + (yoeF n : Int) + 1 from by
        omega] at e_dec
      have hL400 : leapYY (yoeF n + 1) = true := by
        rw [show yoeF n + 1 = 400 from by omega]; decide
      have hdiy : daysInYear (era * 400 + (yoeF n : Int) + 1) = 366 := by
        unfold daysInYear
        rw [hshift2, if_pos hL400]
      refine ⟨by omega, by rw [hdiy]; omega, by omega⟩
    · have e_n1 := daysFromCivil_le2 era ((yoeF n + 1 : Nat) : Int) 1 1
        (by omega) (by omega) (by norm_num) (by norm_num)
      rw [show era * 400 + ((yoeF n + 1 : Nat) : Int) + 1
          = era * 400 + (yoeF n : Int) + 1 + 1 from by push_cast; ring] at e_n1
      have e_dec := daysFromCivil_ge3 era ((yoeF n + 1 : Nat) : Int) 12 31
        (by omega) (by omega) (by norm_num) (by norm_num)
      rw [show era * 400 + ((yoeF n + 1 : Nat) : Int) = era * 400 + (yoeF n : Int) + 1 from
        by push_cast; ring] at e_dec
      have hysc1 := yearStart_cast (yoeF n + 1)
      have hchain : yearStart (yoeF n) + yearLen (yoeF n) = yearStart (yoeF n + 1) := by
        have h' := yearLen_eq (yoeF n) (by omega)
        rwa [if_neg hy399c] at h'
      refine ⟨by omega, ?_, by omega⟩
      by_cases hL : leapYY (yoeF n + 1) = true
      · have hdiy : daysInYear (era * 400 + (yoeF n : Int) + 1) = 366 := by
          unfold daysInYear
          rw [hshift2, if_pos hL]
        rw [if_pos hL] at hylen_eq
        rw [hdiy]; omega
      · have hdiy : daysInYear (era * 400 + (yoeF n : Int) + 1) = 365 := by
          unfold daysInYear
          rw [hshift2, if_neg hL]
        rw [if_neg hL] at hylen_eq
        rw [hdiy]; omega
  exact ⟨by omega, by omega, by omega, hdm4, by omega, by omega, hblock78.1, hblock78.2,
    by omega, hblock10.1, hblock10.2.1, hblock10.2.2⟩

/-- Full specification of `civilFromDays`: its components are a valid Gregorian
    civil date, `daysFromCivil` is its left inverse, and the enclosing month
    and year boundaries behave as expected. -/
theorem civilFromDays_spec (day y m d : Int) (h : civilFromDays day = (y, m, d)) :
    1 ≤ m ∧ m ≤ 12 ∧ 1 ≤ d ∧ d ≤ daysInMonth y m ∧
    daysFromCivil y m d = day ∧
    daysFromCivil y m 1 ≤ day ∧ day < daysFromCivil y (m + 1) 1 ∧
    daysFromCivil y (m + 1) 1 - daysFromCivil y m 1 = daysInMonth y m ∧
    daysFromCivil y 1 1 ≤ day ∧ day < daysFromCivil (y + 1) 1 1 ∧
    daysFromCivil (y + 1) 1 1 - daysFromCivil y 1 1 = daysInYear y ∧
    daysFromCivil y 12 31 = daysFromCivil (y + 1) 1 1 - 1 := by
  simp only [civilFromDays] at h
  set era := (day + 719468) / 146097 with hera_def
  set n := (day + 719468 - era * 146097).toNat with hn_def
  have hcast : (n : Int) = day + 719468 - era * 146097 := by
    rw [hn_def]
    exact Int.toNat_of_nonneg (by omega)
  have hn146 : n < 146097 := by omega
  injection h with h1 h23
  injection h23 with h2 h3
  subst h1 h2 h3
  by_cases hm2 : mOfDoy (doyOf n) ≤ 2
  · rw [if_pos hm2]
    rw [show (yoeF n : Int) + era * 400 + 1 = era * 400 + (yoeF n : Int) + 1 from by ring]
    exact civilParts_le2 day era n hcast hn146 hm2
  · rw [if_neg hm2]
    rw [show (yoeF n : Int) + era * 400 + 0 = era * 400 + (yoeF n : Int) from by ring]
    exact civilParts_ge3 day era n hcast hn146 (by omega)

/-- `daysFromCivil` is linear in the day argument (the JavaScript `Date`
    constructor normalises out-of-range days the same way). -/
theorem daysFromCivil_day_shift (y m d : Int) :
    daysFromCivil y m d = daysFromCivil y m 1 + d - 1 := by
  simp only [daysFromCivil]
  split <;> split <;> omega

/-! ## The period-window computation (`getPeriodDates` in utils/helpers.js) -/

/-- Models `getPeriodDates(periodType, date)` from `src/utils/helpers.js`.
    `date` is the reference instant; `now` is the wall clock read by
    `new Date()` inside the `all_time` branch (the only branch that consults
    the clock).  The JavaScript `switch` falls to `throw new Error('Invalid
    period type')` on any other string, modelled by `Except.error`.

    * daily: `setHours(0,0,0,0)` truncates to local midnight, the end is
      `setHours(23,59,59,999)` of the same day;
    * weekly: `getDay()` day-of-week shift to Monday, end is start + 6 days
      at 23:59:59.999;
    * monthly: `new Date(y, m, 1)` to `new Date(y, m+1, 0, 23,59,59,999)`;
    * yearly: `new Date(y, 0, 1)` to `new Date(y, 11, 31, 23,59,59,999)`;
    * all_time: `new Date(0)` to `new Date()`. -/
def getPeriodDates (periodType : String) (date : Int) (now : Int) :
    Except String (Int × Int) :=
  if periodType = "daily" then
    .ok (dayNumber date * msPerDay, dayNumber date * msPerDay + (msPerDay - 1))
  else if periodType = "weekly" then
    let dayOfWeek := (dayNumber date + 4) % 7
    let diffToMonday := if dayOfWeek = 0 then -6 else 1 - dayOfWeek
    let startDate := (dayNumber date + diffToMonday) * msPerDay
    .ok (startDate, startDate + 6 * msPerDay + (msPerDay - 1))
  else if periodType = "monthly" then
    .ok (jsDateMs (yearOf date) (monthOf date - 1) 1 0,
         jsDateMs (yearOf date) (monthOf date) 0 (msPerDay - 1))
  else if periodType = "yearly" then
    .ok (jsDateMs (yearOf date) 0 1 0, jsDateMs (yearOf date) 11 31 (msPerDay - 1))
  else if periodType = "all_time" then
    .ok (0, now)
  else
    .error "Invalid period type"

/-- The fixed nominal duration of each bounded period type, in milliseconds:
    24 hours, 7 days, the reference calendar month, the reference calendar
    year (as the specification words them). -/
def periodLengthMs (periodType : String) (date : Int) : Int :=
  if periodType = "daily" then msPerDay
  else if periodType = "weekly" then 7 * msPerDay
  else if periodType = "monthly" then daysInMonth (yearOf date) (monthOf date) * msPerDay
  else if periodType = "yearly" then daysInYear (yearOf date) * msPerDay
  else 0

/-- C1 (amended): for every bounded period type the computed window contains
    the reference instant with inclusive bounds, `start ≤ ref ≤ end`, and its
    length is the nominal duration minus one millisecond (the source builds
    ends at 23:59:59.999, not at the next midnight). -/
theorem getPeriodDates_window_inclusive (periodType : String) (date now : Int)
    (h : periodType = "daily" ∨ periodType = "weekly" ∨ periodType = "monthly" ∨
      periodType = "yearly") :
    ∃ s e, getPeriodDates periodType date now = .ok (s, e) ∧
      s ≤ date ∧ date ≤ e ∧ e - s = periodLengthMs periodType date - 1 := by
  have hcfd : civilFromDays (dayNumber date) =
      (yearOf date, monthOf date, (civilFromDays (dayNumber date)).2.2) := rfl
  obtain ⟨h1, h2, h3, h4, h5, h6, h7, h8, h9, h10, h11, h12⟩ :=
    civilFromDays_spec (dayNumber date) (yearOf date) (monthOf date)
      ((civilFromDays (dayNumber date)).2.2) hcfd
  rcases h with h | h | h | h <;> subst h
  · -- daily
    refine ⟨dayNumber date * msPerDay, dayNumber date * msPerDay + (msPerDay - 1),
      rfl, ?_, ?_, ?_⟩
    · unfold dayNumber msPerDay
      omega
    · unfold dayNumber msPerDay
      omega
    · have hp : periodLengthMs "daily" date = msPerDay := rfl
      rw [hp]
      ring
  · -- weekly
    refine ⟨_, _, rfl, ?_, ?_, ?_⟩
    · unfold dayNumber msPerDay
      split <;> omega
    · unfold dayNumber msPerDay
      split <;> omega
    · have hp : periodLengthMs "weekly" date = 7 * msPerDay := rfl
      rw [hp]
      unfold msPerDay
      split <;> ring
  · -- monthly
    refine ⟨_, _, rfl, ?_, ?_, ?_⟩
    · unfold jsDateMs
      rw [show monthOf date - 1 + 1 = monthOf date from by ring]
      unfold dayNumber msPerDay at *
      omega
    · unfold jsDateMs
      rw [daysFromCivil_day_shift (yearOf date) (monthOf date + 1) 0]
      unfold dayNumber msPerDay at *
      omega
    · have hp : periodLengthMs "monthly" date
          = daysInMonth (yearOf date) (monthOf date) * msPerDay := rfl
      rw [hp]
      unfold jsDateMs
      rw [show monthOf date - 1 + 1 = monthOf date from by ring,
        daysFromCivil_day_shift (yearOf date) (monthOf date + 1) 0]
      unfold msPerDay at *
      omega
  · -- yearly
    refine ⟨_, _, rfl, ?_, ?_, ?_⟩
    · unfold jsDateMs
      rw [show (0 : Int) + 1 = 1 from by norm_num]
      unfold dayNumber msPerDay at *
      omega
    · unfold jsDateMs
      rw [show (11 : Int) + 1 = 12 from by norm_num]
      unfold dayNumber msPerDay at *
      omega
    · have hp : periodLengthMs "yearly" date = daysInYear (yearOf date) * msPerDay := rfl
      rw [hp]
      unfold jsDateMs
      rw [show (0 : Int) + 1 = 1 from by norm_num,
        show (11 : Int) + 1 = 12 from by norm_num]
      unfold msPerDay at *
      omega

/-! ## Data model -/

/-- An activity record (`Run` document, `src/src/models/Run.js`), restricted to
    the fields read by the statistics and leaderboard computations.  `distance`
    is meters, `duration` seconds, speeds m/s; `totalArea` is the optional
    area-coverage metric; `isDeleted` is the soft-delete flag. -/
structure RunRec where
  runId : String
  userId : String
  startTime : Int
  distance : Rat
  duration : Rat
  averageSpeed : Rat
  area : Option String
  totalArea : Option Rat
  isDeleted : Bool
deriving Repr, DecidableEq

/-- A persisted `StatSummary` row (`Stats` document, `src/src/models/Stats.js`);
    also the shape of the plain object `calculateStats` returns on an empty
    selection. -/
structure StatSummary where
  userId : String
  periodType : String
  periodStart : Int
  periodEnd : Int
  totalDistance : Rat
  totalDuration : Rat
  totalRuns : Nat
  averageSpeed : Rat
  longestRun : Rat
  longestDuration : Rat
  fastestSpeed : Rat
deriving Repr, DecidableEq

/-! ## StatsStore (`Stats.updateOrCreateStats`, src/src/models/Stats.js) -/

/-- The compound natural key of a `StatSummary`
    (`{ userId: 1, periodType: 1, periodStart: 1 }`, unique index). -/
def statsKey (s : StatSummary) : String × String × Int :=
  (s.userId, s.periodType, s.periodStart)

/-- Models `findOneAndUpdate(query, { $set: ...all fields... }, { upsert: true })`:
    replace the first row with the given key, or append a new row.  The `$set`
    writes every non-key field, so the stored row equals `row` entirely. -/
def updateOrCreateStats : List StatSummary → StatSummary → List StatSummary
  | [], row => [row]
  | s :: rest, row =>
    if statsKey s = statsKey row then row :: rest else s :: updateOrCreateStats rest row

/-- Key lookup in the store. -/
def findStats (store : List StatSummary) (k : String × String × Int) : Option StatSummary :=
  store.find? (fun s => decide (statsKey s = k))

/-- At most one row per `(userId, periodType, periodStart)` key. -/
def NoDupKeys (store : List StatSummary) : Prop :=
  store.Pairwise (fun a b => statsKey a ≠ statsKey b)

/-- Store states reachable by the aggregation engine: the empty store, closed
    under `updateOrCreateStats` (the only write the stats service performs). -/
inductive ReachableStore : List StatSummary → Prop
  | nil : ReachableStore []
  | upsert (store : List StatSummary) (row : StatSummary) :
      ReachableStore store → ReachableStore (updateOrCreateStats store row)

/-! ## AggregationEngine (`calculateStats`, src/src/services/statsService.js) -/

/-- The Mongo filter of `calculateStats`:
    `{ userId, isDeleted: false, startTime: { $gte: startDate, $lte: endDate } }`.
    Note both bounds are inclusive. -/
def runMatches (userId : String) (s e : Int) (r : RunRec) : Bool :=
  r.userId == userId && r.isDeleted == false &&
    decide (s ≤ r.startTime) && decide (r.startTime ≤ e)

def selectRuns (runsDb : List RunRec) (userId : String) (s e : Int) : List RunRec :=
  runsDb.filter (runMatches userId s e)

/-- `Math.max(...xs)` over a non-empty list (the empty case is never reached
    by the source; `0` stands in for `-Infinity`). -/
def listMax : List Rat → Rat
  | [] => 0
  | x :: xs => xs.foldl max x

/-- Models `StatsService.calculateStats(userId, periodType, refDate)` over an
    in-memory record set `runsDb` and stats store `store`; `now` is the wall
    clock (read only by the `all_time` window).  Returns the produced summary
    and the store after the call: the empty-selection branch returns a plain
    zero object without writing, the non-empty branch upserts the computed
    row.  `3.6` converts m/s to km/h. -/
def calculateStats (store : List StatSummary) (runsDb : List RunRec)
    (userId : String) (periodType : String) (refDate now : Int) :
    Except String (StatSummary × List StatSummary) :=
  match getPeriodDates periodType refDate now with
  | .error e => .error e
  | .ok (startDate, endDate) =>
    let runs := selectRuns runsDb userId startDate endDate
    if runs.length = 0 then
      .ok ({ userId := userId, periodType := periodType, periodStart := startDate,
             periodEnd := endDate, totalDistance := 0, totalDuration := 0, totalRuns := 0,
             averageSpeed := 0, longestRun := 0, longestDuration := 0,
             fastestSpeed := 0 }, store)
    else
      let totalDistance := runs.foldl (fun sum r => sum + r.distance) (0 : Rat)
      let totalDuration := runs.foldl (fun sum r => sum + r.duration) (0 : Rat)
      let averageSpeed :=
        if totalDuration > (0 : Rat) then totalDistance / totalDuration * 3.6 else 0
      let stats : StatSummary :=
        { userId := userId, periodType := periodType, periodStart := startDate,
          periodEnd := endDate, totalDistance := totalDistance,
          totalDuration := totalDuration, totalRuns := runs.length,
          averageSpeed := averageSpeed, longestRun := listMax (runs.map (·.distance)),
          longestDuration := listMax (runs.map (·.duration)),
          fastestSpeed := listMax (runs.map (·.averageSpeed)) }
      .ok (stats, updateOrCreateStats store stats)

/-! ## Pagination (`calculatePagination`, src/utils/helpers.js) -/

structure Pagination where
  page : Nat
  limit : Nat
  totalPages : Nat
  totalItems : Nat
  hasNextPage : Bool
  hasPrevPage : Bool
deriving Repr, DecidableEq

/-- Models `calculatePagination(totalItems, page, limit)`:
    `totalPages = Math.ceil(totalItems / limit)`, `hasNextPage = page < totalPages`,
    `hasPrevPage = page > 1`.  For `limit ≥ 1` the ceiling is
    `(totalItems + limit - 1) / limit` in natural division (`limit = 0`, which
    JavaScript turns into `Infinity`, is outside the modelled domain). -/
def calculatePagination (totalItems page limit : Nat) : Pagination :=
  { page := page, limit := limit, totalPages := (totalItems + limit - 1) / limit,
    totalItems := totalItems, hasNextPage := decide (page < (totalItems + limit - 1) / limit),
    hasPrevPage := decide (page > 1) }

/-- `PAGINATION.MAX_LIMIT` from `src/utils/constants.js`. -/
def MAX_LIMIT : Nat := 100

/-! ## LeaderboardRanker (`getDistanceLeaderboard` / `getAreaLeaderboard`,
    src/src/services/runService.js) -/

/-- `$group` keys in order of first appearance.  Mongo emits one group per
    distinct key; the model fixes document order, one admissible order. -/
def groupKeys (l : List RunRec) : List String :=
  l.foldl (fun acc r => if r.userId ∈ acc then acc else acc ++ [r.userId]) []

/-- Stable insertion into a list sorted descending by `f`: the new element
    goes before the first strictly smaller element, hence after its ties. -/
def insertDescBy {α : Type} (f : α → Rat) (x : α) : List α → List α
  | [] => [x]
  | y :: ys => if f x < f y then y :: insertDescBy f x ys else x :: y :: ys

/-- Stable sort, descending by `f`: models `$sort: { metric: -1 }` with the
    relative order of ties inherited from the grouped order (Mongo leaves tie
    order to the store; a stable sort realises one admissible order). -/
def sortDescBy {α : Type} (f : α → Rat) : List α → List α
  | [] => []
  | x :: xs => insertDescBy f x (sortDescBy f xs)

/-- Models `.map((item, index) => ({ rank: skip + index + 1, ...item }))`. -/
def rankFrom {α : Type} (skip : Nat) : List α → List (Nat × α)
  | [] => []
  | x :: xs => (skip + 1, x) :: rankFrom (skip + 1) xs

/-- One `$group` row of the distance-leaderboard pipeline. -/
structure DistGroup where
  userId : String
  totalDistance : Rat
  totalRuns : Nat
  totalDuration : Rat
deriving Repr, DecidableEq

def distGroupOf (l : List RunRec) (k : String) : DistGroup :=
  let g := l.filter (fun r => r.userId == k)
  { userId := k, totalDistance := (g.map (fun r => r.distance)).sum, totalRuns := g.length,
    totalDuration := (g.map (fun r => r.duration)).sum }

/-- `$match: { isDeleted: false }` then `$group: { _id: $userId, ... }`. -/
def distGroups (runsDb : List RunRec) : List DistGroup :=
  (groupKeys (runsDb.filter (fun r => !r.isDeleted))).map
    (distGroupOf (runsDb.filter (fun r => !r.isDeleted)))

/-- Models `RunService.getDistanceLeaderboard({page, limit})`: match, group,
    sort descending by `totalDistance`, count groups for the metadata, then
    `$skip (page-1)*min(limit, MAX_LIMIT)` / `$limit min(limit, MAX_LIMIT)`,
    and rank entries by absolute position.  The `$lookup`/`$unwind` user join
    uses `preserveNullAndEmptyArrays: true`, so it drops no entry and adds no
    field the model tracks.  `calculatePagination` receives the *unclamped*
    `limit`, exactly as in the source. -/
def getDistanceLeaderboard (runsDb : List RunRec) (page limit : Nat) :
    List (Nat × DistGroup) × Pagination :=
  let sorted := sortDescBy (fun g => g.totalDistance) (distGroups runsDb)
  let skip := (page - 1) * min limit MAX_LIMIT
  (rankFrom skip ((sorted.drop skip).take (min limit MAX_LIMIT)),
    calculatePagination (distGroups runsDb).length page limit)

/-- `$match` of the area pipeline:
    `{ isDeleted: false, totalArea: { $ne: null, $gt: 0 } }`. -/
def areaEligible (r : RunRec) : Bool :=
  !r.isDeleted && (match r.totalArea with | some a => decide (0 < a) | none => false)

/-- One `$group` row of the area-leaderboard pipeline. -/
structure AreaGroup where
  userId : String
  totalAreaCovered : Rat
  totalRuns : Nat
  totalDistance : Rat
deriving Repr, DecidableEq

def areaGroupOf (l : List RunRec) (k : String) : AreaGroup :=
  let g := l.filter (fun r => r.userId == k)
  { userId := k, totalAreaCovered := (g.map (fun r => r.totalArea.getD 0)).sum,
    totalRuns := g.length, totalDistance := (g.map (fun r => r.distance)).sum }

/-- Match eligible records, then group by `$userId` (note: the grouping key of
    `getAreaLeaderboard` is the owner id, not the area label). -/
def areaGroups (runsDb : List RunRec) : List AreaGroup :=
  (groupKeys (runsDb.filter areaEligible)).map (areaGroupOf (runsDb.filter areaEligible))

/-- Models `RunService.getAreaLeaderboard({page, limit})`.  `users` is the set
    of ids present in the `users` collection: the `$lookup` + `$unwind`
    (without `preserveNullAndEmptyArrays`) drops any group whose owner has no
    user document.  The count pipeline (`$match`/`$group`/`$count`) counts the
    groups *before* the join, exactly as in the source. -/
def getAreaLeaderboard (runsDb : List RunRec) (users : List String) (page limit : Nat) :
    List (Nat × AreaGroup) × Pagination :=
  let sorted := (sortDescBy (fun g => g.totalAreaCovered) (areaGroups runsDb)).filter
    (fun g => g.userId ∈ users)
  let skip := (page - 1) * min limit MAX_LIMIT
  (rankFrom skip ((sorted.drop skip).take (min limit MAX_LIMIT)),
    calculatePagination (areaGroups runsDb).length page limit)

/-- The by-area grouping key the specification describes: the distinct area
    labels of the eligible records, in order of first appearance (spec wording:
    group by the dimension's key — the area label).  Used only to compare the
    specified grouping against the implemented one. -/
def areaLabelKeys (runsDb : List RunRec) : List String :=
  (runsDb.filter areaEligible).foldl
    (fun acc r => if r.area.getD "" ∈ acc then acc else acc ++ [r.area.getD ""]) []

/-! ## Helper lemmas -/

theorem flatMap_ext {α β : Type} (f g : α → List β) (h : ∀ a, f a = g a) :
    ∀ l : List α, l.flatMap f = l.flatMap g := by
  intro l
  induction l with
  | nil => rfl
  | cons x xs ih => simp only [List.flatMap_cons, h, ih]

theorem foldl_add_eq_sum (f : RunRec → Rat) :
    ∀ (l : List RunRec) (a : Rat), l.foldl (fun s r => s + f r) a = a + (l.map f).sum := by
  intro l
  induction l with
  | nil => intro a; simp
  | cons x xs ih =>
    intro a
    simp only [List.foldl_cons, List.map_cons, List.sum_cons]
    rw [ih]
    ring

theorem foldl_max_spec :
    ∀ (xs : List Rat) (a : Rat),
      (xs.foldl max a = a ∨ xs.foldl max a ∈ xs) ∧ a ≤ xs.foldl max a ∧
        ∀ x ∈ xs, x ≤ xs.foldl max a := by
  intro xs
  induction xs with
  | nil => intro a; simp
  | cons y ys ih =>
    intro a
    obtain ⟨h1, h2, h3⟩ := ih (max a y)
    simp only [List.foldl_cons]
    refine ⟨?_, le_trans (le_max_left a y) h2, ?_⟩
    · rcases h1 with h | h
      · rcases max_choice a y with hc | hc
        · left; rw [h, hc]
        · right; rw [h, hc]; exact List.mem_cons_self y ys
      · right; exact List.mem_cons_of_mem y h
    · intro x hx
      rcases List.mem_cons.mp hx with hx | hx
      · subst hx; exact le_trans (le_max_right a x) h2
      · exact h3 x hx

theorem listMax_spec (l : List Rat) (h : l ≠ []) :
    listMax l ∈ l ∧ ∀ x ∈ l, x ≤ listMax l := by
  match l with
  | [] => exact absurd rfl h
  | x :: xs =>
    obtain ⟨h1, h2, h3⟩ := foldl_max_spec xs x
    simp only [listMax]
    refine ⟨?_, ?_⟩
    · rcases h1 with h' | h'
      · rw [h']; exact List.mem_cons_self x xs
      · exact List.mem_cons_of_mem x h'
    · intro z hz
      rcases List.mem_cons.mp hz with hz | hz
      · subst hz; exact h2
      · exact h3 z hz

theorem foldl_keys_mem :
    ∀ (l : List RunRec) (acc : List String) (k : String),
      (k ∈ l.foldl (fun acc r => if r.userId ∈ acc then acc else acc ++ [r.userId]) acc ↔
        k ∈ acc ∨ ∃ r, r ∈ l ∧ r.userId = k) := by
  intro l
  induction l with
  | nil => intro acc k; simp
  | cons x xs ih =>
    intro acc k
    simp only [List.foldl_cons]
    rw [ih]
    by_cases hx : x.userId ∈ acc
    · rw [if_pos hx]
      constructor
      · rintro (h | ⟨r, hr, hrk⟩)
        · exact Or.inl h
        · exact Or.inr ⟨r, List.mem_cons_of_mem x hr, hrk⟩
      · rintro (h | ⟨r, hr, hrk⟩)
        · exact Or.inl h
        · rcases List.mem_cons.mp hr with hr' | hr'
          · subst hr'; exact Or.inl (hrk ▸ hx)
          · exact Or.inr ⟨r, hr', hrk⟩
    · rw [if_neg hx]
      constructor
      · rintro (h | ⟨r, hr, hrk⟩)
        · rcases List.mem_append.mp h with h' | h'
          · exact Or.inl h'
          · exact Or.inr ⟨x, List.mem_cons_self x xs, (List.mem_singleton.mp h').symm⟩
        · exact Or.inr ⟨r, List.mem_cons_of_mem x hr, hrk⟩
      · rintro (h | ⟨r, hr, hrk⟩)
        · exact Or.inl (List.mem_append.mpr (Or.inl h))
        · rcases List.mem_cons.mp hr with hr' | hr'
          · subst hr'
            exact Or.inl (List.mem_append.mpr (Or.inr (List.mem_singleton.mpr hrk.symm)))
          · exact Or.inr ⟨r, hr', hrk⟩

theorem foldl_keys_nodup :
    ∀ (l : List RunRec) (acc : List String), acc.Nodup →
      (l.foldl (fun acc r => if r.userId ∈ acc then acc else acc ++ [r.userId]) acc).Nodup := by
  intro l
  induction l with
  | nil => intro acc h; simpa using h
  | cons x xs ih =>
    intro acc h
    simp only [List.foldl_cons]
    by_cases hx : x.userId ∈ acc
    · rw [if_pos hx]; exact ih acc h
    · rw [if_neg hx]
      refine ih _ ?_
      rw [List.nodup_append]
      exact ⟨h, List.nodup_singleton _, by
        intro a ha hb
        rw [List.mem_singleton] at hb
        subst hb
        exact hx ha⟩

theorem groupKeys_mem (l : List RunRec) (k : String) :
    k ∈ groupKeys l ↔ ∃ r, r ∈ l ∧ r.userId = k := by
  unfold groupKeys
  rw [foldl_keys_mem]
  simp

theorem groupKeys_nodup (l : List RunRec) : (groupKeys l).Nodup :=
  foldl_keys_nodup l [] List.nodup_nil

theorem insertDescBy_perm {α : Type} (f : α → Rat) (x : α) :
    ∀ l : List α, (insertDescBy f x l).Perm (x :: l) := by
  intro l
  induction l with
  | nil => exact List.Perm.refl _
  | cons y ys ih =>
    unfold insertDescBy
    split
    · exact List.Perm.trans (List.Perm.cons y ih) (List.Perm.swap x y ys)
    · exact List.Perm.refl _

theorem sortDescBy_perm {α : Type} (f : α → Rat) :
    ∀ l : List α, (sortDescBy f l).Perm l := by
  intro l
  induction l with
  | nil => exact List.Perm.refl _
  | cons x xs ih =>
    unfold sortDescBy
    exact List.Perm.trans (insertDescBy_perm f x (sortDescBy f xs)) (List.Perm.cons x ih)

theorem insertDescBy_sorted {α : Type} (f : α → Rat) (x : α) :
    ∀ l : List α, l.Pairwise (fun a b => f b ≤ f a) →
      (insertDescBy f x l).Pairwise (fun a b => f b ≤ f a) := by
  intro l
  induction l with
  | nil => intro _; simp [insertDescBy]
  | cons y ys ih =>
    intro h
    rw [List.pairwise_cons] at h
    obtain ⟨hy, hys⟩ := h
    unfold insertDescBy
    split
    · rename_i hlt
      rw [List.pairwise_cons]
      refine ⟨?_, ih hys⟩
      intro z hz
      have := (insertDescBy_perm f x ys).mem_iff.mp hz
      rcases List.mem_cons.mp this with h' | h'
      · subst h'; exact le_of_lt hlt
      · exact hy z h'
    · rename_i hge
      rw [List.pairwise_cons]
      refine ⟨?_, List.pairwise_cons.mpr ⟨hy, hys⟩⟩
      intro z hz
      rcases List.mem_cons.mp hz with h' | h'
      · subst h'; exact le_of_not_lt hge
      · exact le_trans (hy z h') (le_of_not_lt hge)

theorem sortDescBy_sorted {α : Type} (f : α → Rat) :
    ∀ l : List α, (sortDescBy f l).Pairwise (fun a b => f b ≤ f a) := by
  intro l
  induction l with
  | nil => simp [sortDescBy]
  | cons x xs ih =>
    unfold sortDescBy
    exact insertDescBy_sorted f x _ ih

theorem rankFrom_map_snd {α : Type} :
    ∀ (l : List α) (k : Nat), (rankFrom k l).map Prod.snd = l := by
  intro l
  induction l with
  | nil => intro k; rfl
  | cons x xs ih => intro k; simp [rankFrom, ih]

theorem rankFrom_mem {α : Type} :
    ∀ (l : List α) (m : Nat) (b : Nat × α), b ∈ rankFrom m l → m < b.1 ∧ b.2 ∈ l := by
  intro l
  induction l with
  | nil => intro m b h; simp [rankFrom] at h
  | cons x xs ih =>
    intro m b h
    rcases List.mem_cons.mp h with h' | h'
    · subst h'; exact ⟨by omega, List.mem_cons_self x xs⟩
    · obtain ⟨h1, h2⟩ := ih (m + 1) b h'
      exact ⟨by omega, List.mem_cons_of_mem x h2⟩

theorem rankFrom_pairwise {α : Type} (R : α → α → Prop) :
    ∀ (l : List α) (k : Nat), l.Pairwise R →
      (rankFrom k l).Pairwise (fun a b => R a.2 b.2 ∧ a.1 < b.1) := by
  intro l
  induction l with
  | nil => intro k _; simp [rankFrom]
  | cons x xs ih =>
    intro k h
    rw [List.pairwise_cons] at h
    obtain ⟨hx, hxs⟩ := h
    unfold rankFrom
    rw [List.pairwise_cons]
    refine ⟨?_, ih (k + 1) hxs⟩
    intro b hb
    obtain ⟨h1, h2⟩ := rankFrom_mem xs (k + 1) b hb
    exact ⟨hx b.2 h2, by omega⟩

theorem updateOrCreateStats_mem (row a : StatSummary) :
    ∀ store : List StatSummary,
      a ∈ updateOrCreateStats store row → a = row ∨ a ∈ store := by
  intro store
  induction store with
  | nil =>
    intro h
    simp [updateOrCreateStats] at h
    exact Or.inl h
  | cons s rest ih =>
    intro h
    unfold updateOrCreateStats at h
    split at h
    · rcases List.mem_cons.mp h with h' | h'
      · exact Or.inl h'
      · exact Or.inr (List.mem_cons_of_mem s h')
    · rcases List.mem_cons.mp h with h' | h'
      · subst h'; exact Or.inr (List.mem_cons_self a rest)
      · rcases ih h' with h'' | h''
        · exact Or.inl h''
        · exact Or.inr (List.mem_cons_of_mem s h'')

theorem updateOrCreateStats_nodup (row : StatSummary) :
    ∀ store : List StatSummary, NoDupKeys store →
      NoDupKeys (updateOrCreateStats store row) := by
  intro store
  induction store with
  | nil => intro _; simp [updateOrCreateStats, NoDupKeys]
  | cons s rest ih =>
    intro h
    unfold NoDupKeys at h
    rw [List.pairwise_cons] at h
    obtain ⟨hs, hrest⟩ := h
    unfold updateOrCreateStats
    split
    · rename_i heq
      unfold NoDupKeys
      rw [List.pairwise_cons]
      exact ⟨fun b hb => heq ▸ hs b hb, hrest⟩
    · rename_i hne
      unfold NoDupKeys
      rw [List.pairwise_cons]
      refine ⟨?_, ih hrest⟩
      intro b hb
      rcases updateOrCreateStats_mem row b rest hb with h' | h'
      · subst h'; exact hne
      · exact hs b h'

theorem updateOrCreateStats_find_self (row : StatSummary) :
    ∀ store : List StatSummary,
      findStats (updateOrCreateStats store row) (statsKey row) = some row := by
  intro store
  induction store with
  | nil => simp [updateOrCreateStats, findStats, List.find?]
  | cons s rest ih =>
    unfold updateOrCreateStats
    split
    · simp [findStats, List.find?]
    · rename_i hne
      unfold findStats at ih ⊢
      rw [List.find?_cons_of_neg _ (by simpa using hne)]
      exact ih

theorem updateOrCreateStats_find_other (row : StatSummary) (k : String × String × Int)
    (hk : k ≠ statsKey row) :
    ∀ store : List StatSummary,
      findStats (updateOrCreateStats store row) k = findStats store k := by
  intro store
  induction store with
  | nil =>
    simp only [updateOrCreateStats, findStats]
    rw [List.find?_cons_of_neg _ (by
      simp only [decide_eq_true_eq]
      exact fun h => hk h.symm)]
  | cons s rest ih =>
    unfold updateOrCreateStats
    split
    · rename_i heq
      unfold findStats
      rw [List.find?_cons_of_neg _ (by
          simp only [decide_eq_true_eq]
          exact fun h => hk h.symm),
        List.find?_cons_of_neg _ (by
          simp only [decide_eq_true_eq]
          intro h
          rw [heq] at h
          exact hk h.symm)]
    · unfold findStats at ih ⊢
      by_cases hs : statsKey s = k
      · rw [List.find?_cons_of_pos _ (by simpa using hs),
          List.find?_cons_of_pos _ (by simpa using hs)]
      · rw [List.find?_cons_of_neg _ (by simpa using hs),
          List.find?_cons_of_neg _ (by simpa using hs)]
        exact ih

/-- Chunking a list into consecutive `L`-sized pages and concatenating them
    restores the list. -/
theorem chunks_flatMap {α : Type} (L : Nat) (hL : 1 ≤ L) :
    ∀ (n : Nat) (l : List α), (l.length + L - 1) / L = n →
      (List.range n).flatMap (fun i => (l.drop (i * L)).take L) = l := by
  have hL0 : 0 < L := hL
  intro n
  induction n with
  | zero =>
    intro l h
    have hlen : l.length = 0 := by
      by_contra hc
      have h1 : l.length + L - 1 = (l.length - 1) + L := by clear h; omega
      rw [h1, Nat.add_div_right _ hL0] at h
      exact Nat.succ_ne_zero _ h
    rw [List.length_eq_zero.mp hlen]
    rfl
  | succ n ih =>
    intro l h
    have hne : l.length ≠ 0 := by
      intro hc
      rw [hc, Nat.div_eq_of_lt (show 0 + L - 1 < L by clear h ih; omega)] at h
      exact Nat.succ_ne_zero n h.symm
    have h1 : l.length + L - 1 = (l.length - 1) + L := by clear h; omega
    rw [h1, Nat.add_div_right _ hL0] at h
    have hq : (l.length - 1) / L = n := Nat.add_right_cancel h
    clear h h1
    have hrest : ((l.drop L).length + L - 1) / L = n := by
      rw [List.length_drop]
      by_cases hc : l.length ≤ L
      · have hz : l.length - L = 0 := by clear hq; omega
        have hn0 : n = 0 := by
          rw [Nat.div_eq_of_lt (show l.length - 1 < L by clear hq; omega)] at hq
          exact hq.symm
        rw [hz, hn0]
        exact Nat.div_eq_of_lt (by clear hq; omega)
      · have h2 : l.length - L + L - 1 = (l.length - L - 1) + L := by clear hq; omega
        rw [h2, Nat.add_div_right _ hL0]
        have h3 : l.length - 1 = (l.length - L - 1) + L := by clear hq; omega
        rw [h3, Nat.add_div_right _ hL0] at hq
        exact hq
    rw [List.range_succ_eq_map, List.flatMap_cons]
    have hmap : (List.map Nat.succ (List.range n)).flatMap
          (fun i => (l.drop (i * L)).take L)
        = (List.range n).flatMap (fun i => ((l.drop L).drop (i * L)).take L) := by
      induction List.range n with
      | nil => rfl
      | cons j js ihj =>
        simp only [List.map_cons, List.flatMap_cons] at ihj ⊢
        rw [ihj]
        congr 1
        rw [List.drop_drop]
        congr 2
        rw [Nat.succ_mul]
        omega
    rw [hmap, ih (l.drop L) hrest]
    rw [show 0 * L = 0 from Nat.zero_mul L, List.drop_zero]
    exact List.take_append_drop L l

/-! ## Claims -/

/-- C1 (counterexample to the claim as stated): for the daily window at the
    last millisecond of a day, the strict upper bound `ref < end` fails and the
    window length is 86399999 ms, not the claimed 24 h = 86400000 ms. -/
theorem getPeriodDates_daily_counterexample :
    getPeriodDates "daily" 86399999 0 = .ok (0, 86399999) ∧
    ((86399999 : Int) - 0 ≠ 86400000) ∧ ¬ ((86399999 : Int) < 86399999) := by
  refine ⟨rfl, by decide, by decide⟩

theorem getPeriodDates_window_inclusive_witness :
    ("monthly" = "daily" ∨ "monthly" = "weekly" ∨ "monthly" = "monthly" ∨
      "monthly" = "yearly") ∧
    (∃ s e, getPeriodDates "monthly" 1700000000000 0 = .ok (s, e) ∧
      s ≤ 1700000000000 ∧ 1700000000000 ≤ e ∧
      e - s = periodLengthMs "monthly" 1700000000000 - 1) :=
  ⟨by decide, getPeriodDates_window_inclusive "monthly" 1700000000000 0 (by decide)⟩

/-- C2 (counterexample to the claim as stated): the selection bound is
    `$lte endDate`, so a record whose `startTime` equals the window end is
    aggregated (here one run of distance 5 at the last millisecond of the
    daily window), while the claim says it contributes nothing. -/
theorem calculateStats_inclusive_end_counterexample :
    getPeriodDates "daily" 0 0 = .ok (0, 86399999) ∧
    (calculateStats [] [⟨"r1", "u", 86399999, 5, 10, 2, none, none, false⟩]
        "u" "daily" 0 0).map (fun p => (p.1.totalRuns, p.1.totalDistance)) =
      .ok (1, 5) ∧
    ¬ ((86399999 : Int) < 86399999) := by
  refine ⟨rfl, by decide, by decide⟩

/-- C2 (amended): `calculateStats` succeeds for every window the period
    computation returns, and aggregates exactly the records with matching
    owner, `isDeleted = false`, and `start ≤ startTime ≤ end` — both bounds
    inclusive (`$gte`/`$lte`). -/
theorem calculateStats_selection_inclusive (store : List StatSummary)
    (runsDb : List RunRec) (userId periodType : String) (refDate now s e : Int)
    (h : getPeriodDates periodType refDate now = .ok (s, e)) :
    (∃ sum st, calculateStats store runsDb userId periodType refDate now = .ok (sum, st) ∧
      sum.totalRuns = (selectRuns runsDb userId s e).length) ∧
    ∀ r : RunRec, r ∈ selectRuns runsDb userId s e ↔
      r ∈ runsDb ∧ r.userId = userId ∧ r.isDeleted = false ∧
        s ≤ r.startTime ∧ r.startTime ≤ e := by
  constructor
  · simp only [calculateStats, h]
    by_cases hl : (selectRuns runsDb userId s e).length = 0
    · rw [if_pos hl]
      exact ⟨_, _, rfl, by dsimp only; omega⟩
    · rw [if_neg hl]
      exact ⟨_, _, rfl, rfl⟩
  · intro r
    unfold selectRuns runMatches
    rw [List.mem_filter]
    simp only [Bool.and_eq_true, beq_iff_eq, decide_eq_true_eq]
    constructor
    · rintro ⟨h1, ⟨⟨⟨h2, h3⟩, h4⟩, h5⟩⟩
      exact ⟨h1, h2, h3, h4, h5⟩
    · rintro ⟨h1, h2, h3, h4, h5⟩
      exact ⟨h1, ⟨⟨⟨h2, h3⟩, h4⟩, h5⟩⟩

theorem calculateStats_selection_inclusive_witness :
    getPeriodDates "daily" 0 0 = .ok (0, 86399999) ∧
    ((∃ sum st, calculateStats [] [⟨"r1", "u", 50, 7, 3, 2, none, none, false⟩]
        "u" "daily" 0 0 = .ok (sum, st) ∧
      sum.totalRuns =
        (selectRuns [⟨"r1", "u", 50, 7, 3, 2, none, none, false⟩] "u" 0 86399999).length) ∧
    ∀ r : RunRec,
      r ∈ selectRuns [⟨"r1", "u", 50, 7, 3, 2, none, none, false⟩] "u" 0 86399999 ↔
        r ∈ [⟨"r1", "u", 50, 7, 3, 2, none, none, false⟩] ∧ r.userId = "u" ∧
          r.isDeleted = false ∧ 0 ≤ r.startTime ∧ r.startTime ≤ 86399999) :=
  ⟨rfl, calculateStats_selection_inclusive [] _ "u" "daily" 0 0 0 86399999 rfl⟩

/-- The record set of the weekly scenario: three non-deleted runs of owner
    `u` with distances 1000, 2000, 1500, all inside the ISO week starting
    Monday 1970-01-05 (day number 4). -/
def scenarioRuns : List RunRec :=
  [⟨"r1", "u", 345600000, 1000, 600, 2, none, none, false⟩,
   ⟨"r2", "u", 345600001, 2000, 1200, 3, none, none, false⟩,
   ⟨"r3", "u", 432000000, 1500, 900, 4, none, none, false⟩]

/-- C3 (confirmed): on a non-empty selection the summary fields are the sums,
    the count, the guarded unit-converted average, and the maxima of the
    respective fields over the selection. -/
theorem calculateStats_formulas (store : List StatSummary) (runsDb : List RunRec)
    (userId periodType : String) (refDate now s e : Int)
    (h : getPeriodDates periodType refDate now = .ok (s, e))
    (hne : selectRuns runsDb userId s e ≠ []) :
    ∃ sum st, calculateStats store runsDb userId periodType refDate now = .ok (sum, st) ∧
      sum.totalDistance = ((selectRuns runsDb userId s e).map (fun r => r.distance)).sum ∧
      sum.totalDuration = ((selectRuns runsDb userId s e).map (fun r => r.duration)).sum ∧
      sum.totalRuns = (selectRuns runsDb userId s e).length ∧
      sum.averageSpeed = (if 0 < sum.totalDuration
        then sum.totalDistance / sum.totalDuration * 3.6 else 0) ∧
      (sum.totalDuration = 0 → sum.averageSpeed = 0) ∧
      (sum.longestRun ∈ (selectRuns runsDb userId s e).map (fun r => r.distance) ∧
        ∀ x ∈ (selectRuns runsDb userId s e).map (fun r => r.distance),
          x ≤ sum.longestRun) ∧
      (sum.longestDuration ∈ (selectRuns runsDb userId s e).map (fun r => r.duration) ∧
        ∀ x ∈ (selectRuns runsDb userId s e).map (fun r => r.duration),
          x ≤ sum.longestDuration) ∧
      (sum.fastestSpeed ∈ (selectRuns runsDb userId s e).map (fun r => r.averageSpeed) ∧
        ∀ x ∈ (selectRuns runsDb userId s e).map (fun r => r.averageSpeed),
          x ≤ sum.fastestSpeed) := by
  have hlen : (selectRuns runsDb userId s e).length ≠ 0 := by
    intro hc
    exact hne (List.length_eq_zero.mp hc)
  have hmapne : ∀ f : RunRec → Rat, (selectRuns runsDb userId s e).map f ≠ [] := by
    intro f hc
    rw [List.map_eq_nil_iff] at hc
    exact hne hc
  simp only [calculateStats, h]
  rw [if_neg hlen]
  refine ⟨_, _, rfl, ?_, ?_, rfl, rfl, ?_, ?_, ?_, ?_⟩
  · dsimp only
    rw [foldl_add_eq_sum]
    ring
  · dsimp only
    rw [foldl_add_eq_sum]
    ring
  · intro hz
    dsimp only at hz ⊢
    rw [hz]
    norm_num
  · exact listMax_spec _ (hmapne _)
  · exact listMax_spec _ (hmapne _)
  · exact listMax_spec _ (hmapne _)

theorem calculateStats_formulas_witness :
    (getPeriodDates "weekly" 345600000 0 = .ok (345600000, 950399999) ∧
      selectRuns scenarioRuns "u" 345600000 950399999 ≠ []) ∧
    (∃ sum st, calculateStats [] scenarioRuns "u" "weekly" 345600000 0 = .ok (sum, st) ∧
      sum.totalDistance =
        ((selectRuns scenarioRuns "u" 345600000 950399999).map (fun r => r.distance)).sum) ∧
    (calculateStats [] scenarioRuns "u" "weekly" 345600000 0).map
        (fun p => (p.1.totalDistance, p.1.totalRuns, p.1.longestRun)) =
      .ok (4500, 3, 2000) := by
  refine ⟨⟨rfl, by decide⟩, ?_, by decide⟩
  obtain ⟨sum, st, e1, e2, _⟩ := calculateStats_formulas [] scenarioRuns "u" "weekly"
    345600000 0 345600000 950399999 rfl (by decide)
  exact ⟨sum, st, e1, e2⟩

/-- C4 helper: the bounded windows do not read the wall clock. -/
theorem getPeriodDates_ignores_now (periodType : String) (date now1 now2 : Int)
    (h : periodType = "daily" ∨ periodType = "weekly" ∨ periodType = "monthly" ∨
      periodType = "yearly") :
    getPeriodDates periodType date now1 = getPeriodDates periodType date now2 := by
  rcases h with h | h | h | h <;> subst h <;> rfl

/-- C4 (counterexample to the claim as stated): for `all_time` the window end
    is the wall clock at computation time, so two calls with identical input
    data but different clock instants return summaries that differ in
    `periodEnd` — `calculateStats` is not idempotent for `all_time`. -/
theorem calculateStats_alltime_counterexample :
    (calculateStats [] [] "u" "all_time" 0 1000).map Prod.fst ≠
      (calculateStats [] [] "u" "all_time" 0 2000).map Prod.fst := by
  decide

/-- C4 (amended): `calculateStats` is idempotent for the bounded period types
    (daily, weekly, monthly, yearly) regardless of the store contents and the
    clock; for `all_time` it is idempotent only when the clock instant is
    unchanged between the two invocations. -/
theorem calculateStats_idempotent (store1 store2 : List StatSummary) (runsDb : List RunRec)
    (userId periodType : String) (refDate now1 now2 : Int)
    (h : (periodType = "daily" ∨ periodType = "weekly" ∨ periodType = "monthly" ∨
      periodType = "yearly") ∨ now1 = now2) :
    (calculateStats store1 runsDb userId periodType refDate now1).map Prod.fst =
      (calculateStats store2 runsDb userId periodType refDate now2).map Prod.fst := by
  have hgp : getPeriodDates periodType refDate now1
      = getPeriodDates periodType refDate now2 := by
    rcases h with h | h
    · exact getPeriodDates_ignores_now periodType refDate now1 now2 h
    · rw [h]
  simp only [calculateStats, hgp]
  cases hE : getPeriodDates periodType refDate now2 with
  | error e => rfl
  | ok p =>
    obtain ⟨s, e⟩ := p
    dsimp only
    by_cases hl : (selectRuns runsDb userId s e).length = 0
    · rw [if_pos hl, if_pos hl]
      rfl
    · rw [if_neg hl, if_neg hl]
      rfl

theorem calculateStats_idempotent_witness :
    ((("daily" = "daily" ∨ "daily" = "weekly" ∨ "daily" = "monthly" ∨
      "daily" = "yearly") ∨ ((5 : Int) = 7)) ∧
    (calculateStats [] [⟨"r1", "u", 50, 7, 3, 2, none, none, false⟩]
        "u" "daily" 0 5).map Prod.fst =
      (calculateStats [⟨"v", "daily", 9, 9, 9, 9, 9, 9, 9, 9, 9⟩]
        [⟨"r1", "u", 50, 7, 3, 2, none, none, false⟩] "u" "daily" 0 7).map Prod.fst) :=
  ⟨Or.inl (Or.inl rfl),
   calculateStats_idempotent [] [⟨"v", "daily", 9, 9, 9, 9, 9, 9, 9, 9, 9⟩]
     [⟨"r1", "u", 50, 7, 3, 2, none, none, false⟩] "u" "daily" 0 5 7
     (Or.inl (Or.inl rfl))⟩

/-- C5 (counterexample to the claim as stated): two owners tie at total
    distance 5000; the store order puts `b` first and the code sorts only by
    the metric, so the returned order is `b`, `a` — not the claimed ascending
    key order on ties. -/
theorem getDistanceLeaderboard_tie_counterexample :
    (getDistanceLeaderboard
        [⟨"r1", "b", 0, 5000, 60, 1, none, none, false⟩,
         ⟨"r2", "a", 0, 5000, 60, 1, none, none, false⟩] 1 10).1 =
      [(1, ⟨"b", 5000, 1, 60⟩), (2, ⟨"a", 5000, 1, 60⟩)] ∧
    ((5000 : Rat) = 5000) ∧ ¬ ("b" < "a") := by
  refine ⟨by decide, rfl, ?_⟩
  simp only [String.lt_iff_toList_lt]
  decide

/-- C5 (amended): the returned leaderboard entries are sorted by
    non-increasing primary metric and strictly increasing rank; exact ties
    keep the grouped (store) order and are not re-ordered by key. -/
theorem getDistanceLeaderboard_sorted (runsDb : List RunRec) (page limit : Nat) :
    ((getDistanceLeaderboard runsDb page limit).1).Pairwise
      (fun a b => b.2.totalDistance ≤ a.2.totalDistance ∧ a.1 < b.1) := by
  have hs := sortDescBy_sorted (fun g => g.totalDistance) (distGroups runsDb)
  have hdrop : (((sortDescBy (fun g => g.totalDistance) (distGroups runsDb)).drop
      ((page - 1) * min limit MAX_LIMIT))).Pairwise
      (fun a b => b.totalDistance ≤ a.totalDistance) :=
    List.Pairwise.sublist (List.drop_sublist _ _) hs
  have htake : ((((sortDescBy (fun g => g.totalDistance) (distGroups runsDb)).drop
      ((page - 1) * min limit MAX_LIMIT)).take (min limit MAX_LIMIT)).Pairwise
      (fun a b => b.totalDistance ≤ a.totalDistance)) :=
    List.Pairwise.sublist (List.take_sublist _ _) hdrop
  exact rankFrom_pairwise (fun a b : DistGroup => b.totalDistance ≤ a.totalDistance) _ _ htake

/-- C6 (amended): when the requested limit is within `[1, MAX_LIMIT]`,
    concatenating the entries of pages `1..totalPages` reproduces the whole
    sorted group list — a permutation of the groups, one entry per non-deleted
    owner, without duplicates — and every page's metadata is computed from the
    pre-slice group count.  (Beyond `MAX_LIMIT` the metadata uses the raw
    limit while the slice uses the clamped one, and completeness fails.) -/
theorem getDistanceLeaderboard_pages (runsDb : List RunRec) (limit : Nat)
    (h1 : 1 ≤ limit) (h2 : limit ≤ MAX_LIMIT) :
    ((List.range ((getDistanceLeaderboard runsDb 1 limit).2.totalPages)).flatMap
        (fun i => (getDistanceLeaderboard runsDb (i + 1) limit).1.map Prod.snd))
      = sortDescBy (fun g => g.totalDistance) (distGroups runsDb) ∧
    (sortDescBy (fun g => g.totalDistance) (distGroups runsDb)).Perm (distGroups runsDb) ∧
    ((distGroups runsDb).map (fun g => g.userId)).Nodup ∧
    (∀ k : String, k ∈ (distGroups runsDb).map (fun g => g.userId) ↔
      ∃ r, r ∈ runsDb ∧ r.isDeleted = false ∧ r.userId = k) ∧
    (∀ page : Nat, (getDistanceLeaderboard runsDb page limit).2 =
      calculatePagination (distGroups runsDb).length page limit) := by
  have hmin : min limit MAX_LIMIT = limit := Nat.min_eq_left h2
  have hkeys : (distGroups runsDb).map (fun g => g.userId)
      = groupKeys (runsDb.filter (fun r => !r.isDeleted)) := by
    unfold distGroups
    rw [List.map_map]
    rw [show ((fun g => g.userId) ∘ distGroupOf (runsDb.filter (fun r => !r.isDeleted)))
      = fun k => k from funext (fun k => rfl)]
    exact List.map_id _
  refine ⟨?_, sortDescBy_perm _ _, ?_, ?_, fun page => rfl⟩
  · have htp : (getDistanceLeaderboard runsDb 1 limit).2.totalPages
        = ((sortDescBy (fun g => g.totalDistance) (distGroups runsDb)).length + limit - 1)
          / limit := by
      rw [(sortDescBy_perm (fun g => g.totalDistance) (distGroups runsDb)).length_eq]
      rfl
    have hext := flatMap_ext
      (fun i => (getDistanceLeaderboard runsDb (i + 1) limit).1.map Prod.snd)
      (fun i => ((sortDescBy (fun g => g.totalDistance) (distGroups runsDb)).drop
        (i * limit)).take limit)
      (fun i => by
        simp only [getDistanceLeaderboard]
        rw [rankFrom_map_snd, hmin, Nat.add_sub_cancel])
      (List.range ((getDistanceLeaderboard runsDb 1 limit).2.totalPages))
    rw [hext, htp]
    exact chunks_flatMap limit h1 _ _ rfl
  · rw [hkeys]
    exact groupKeys_nodup _
  · intro k
    rw [hkeys, groupKeys_mem]
    constructor
    · rintro ⟨r, hr, hk⟩
      rw [List.mem_filter] at hr
      exact ⟨r, hr.1, by simpa using hr.2, hk⟩
    · rintro ⟨r, hr, hd, hk⟩
      exact ⟨r, List.mem_filter.mpr ⟨hr, by simp [hd]⟩, hk⟩

theorem getDistanceLeaderboard_pages_witness :
    (1 ≤ 10 ∧ 10 ≤ MAX_LIMIT) ∧
    ((List.range ((getDistanceLeaderboard
        [⟨"a1", "alice", 0, 100, 50, 2, none, none, false⟩,
         ⟨"b1", "bob", 5, 200, 50, 4, none, none, false⟩] 1 10).2.totalPages)).flatMap
      (fun i => (getDistanceLeaderboard
        [⟨"a1", "alice", 0, 100, 50, 2, none, none, false⟩,
         ⟨"b1", "bob", 5, 200, 50, 4, none, none, false⟩] (i + 1) 10).1.map Prod.snd))
      = sortDescBy (fun g => g.totalDistance) (distGroups
        [⟨"a1", "alice", 0, 100, 50, 2, none, none, false⟩,
         ⟨"b1", "bob", 5, 200, 50, 4, none, none, false⟩]) :=
  ⟨⟨by decide, by decide⟩,
   (getDistanceLeaderboard_pages
     [⟨"a1", "alice", 0, 100, 50, 2, none, none, false⟩,
      ⟨"b1", "bob", 5, 200, 50, 4, none, none, false⟩] 10 (by decide) (by decide)).1⟩

/-- 101 distinct owners with one non-deleted run each. -/
def manyRuns : List RunRec :=
  (List.range 101).map (fun i =>
    ⟨toString i, "u" ++ toString i, 0, 1, 1, 1, none, none, false⟩)

/-- C6 (counterexample to the claim as stated): with 101 eligible owners and
    requested limit 101 (> MAX_LIMIT = 100), the metadata computes
    `totalPages = ceil(101/101) = 1` from the *unclamped* limit while the page
    slice is clamped to 100 entries, so concatenating pages `1..totalPages`
    yields 100 of the 101 groups — one group is lost. -/
theorem getDistanceLeaderboard_limit_counterexample :
    MAX_LIMIT < 101 ∧
    (getDistanceLeaderboard manyRuns 1 101).2.totalPages = 1 ∧
    (distGroups manyRuns).length = 101 ∧
    ((List.range ((getDistanceLeaderboard manyRuns 1 101).2.totalPages)).flatMap
      (fun i => (getDistanceLeaderboard manyRuns (i + 1) 101).1.map Prod.snd)).length
      = 100 := by
  refine ⟨by decide, ?_, ?_, ?_⟩ <;>
    exact by set_option maxRecDepth 100000 in decide

/-- C7 (counterexample to the claim as stated): the area leaderboard groups
    by owner id, not by area label: two owners sharing area label `X` yield
    two entries keyed by their user ids, while grouping by the area label
    would yield the single key `X`. -/
theorem getAreaLeaderboard_groupkey_counterexample :
    ((getAreaLeaderboard
        [⟨"r1", "u1", 0, 1, 1, 1, some "X", some 5, false⟩,
         ⟨"r2", "u2", 0, 1, 1, 1, some "X", some 7, false⟩] ["u1", "u2"] 1 10).1.map
      (fun p => p.2.userId)) = ["u2", "u1"] ∧
    areaLabelKeys
        [⟨"r1", "u1", 0, 1, 1, 1, some "X", some 5, false⟩,
         ⟨"r2", "u2", 0, 1, 1, 1, some "X", some 7, false⟩] = ["X"] ∧
    ((getAreaLeaderboard
        [⟨"r1", "u1", 0, 1, 1, 1, some "X", some 5, false⟩,
         ⟨"r2", "u2", 0, 1, 1, 1, some "X", some 7, false⟩] ["u1", "u2"] 1 10).1.map
      (fun p => p.2.userId)) ≠ areaLabelKeys
        [⟨"r1", "u1", 0, 1, 1, 1, some "X", some 5, false⟩,
         ⟨"r2", "u2", 0, 1, 1, 1, some "X", some 7, false⟩] := by
  refine ⟨by decide, by decide, by decide⟩

/-- C7 (amended): the by-area ranking groups by the *owner id*; each entry's
    primary metric is the owner's cumulative `totalArea` over eligible records
    (present and > 0); records with an absent or zero metric are ineligible,
    and owners with no eligible record produce no entry at all. -/
theorem getAreaLeaderboard_groups_by_owner (runsDb : List RunRec) (users : List String)
    (page limit : Nat)
    (hcov : ∀ r, r ∈ runsDb → areaEligible r = true → r.userId ∈ users) :
    ((areaGroups runsDb).map (fun g => g.userId)).Nodup ∧
    (∀ k : String, k ∈ (areaGroups runsDb).map (fun g => g.userId) ↔
      ∃ r, r ∈ runsDb ∧ areaEligible r = true ∧ r.userId = k) ∧
    (∀ g, g ∈ areaGroups runsDb →
      g.totalAreaCovered = (((runsDb.filter areaEligible).filter
        (fun r => r.userId == g.userId)).map (fun r => r.totalArea.getD 0)).sum) ∧
    (∀ r : RunRec, r.totalArea = none ∨ r.totalArea = some 0 → areaEligible r = false) ∧
    ((getAreaLeaderboard runsDb users page limit).1.map Prod.snd
      = ((sortDescBy (fun g => g.totalAreaCovered) (areaGroups runsDb)).drop
          ((page - 1) * min limit MAX_LIMIT)).take (min limit MAX_LIMIT)) := by
  have hkeys : (areaGroups runsDb).map (fun g => g.userId)
      = groupKeys (runsDb.filter areaEligible) := by
    unfold areaGroups
    rw [List.map_map]
    rw [show ((fun g => g.userId) ∘ areaGroupOf (runsDb.filter areaEligible))
      = fun k => k from funext (fun k => rfl)]
    exact List.map_id _
  refine ⟨?_, ?_, ?_, ?_, ?_⟩
  · rw [hkeys]
    exact groupKeys_nodup _
  · intro k
    rw [hkeys, groupKeys_mem]
    constructor
    · rintro ⟨r, hr, hk⟩
      rw [List.mem_filter] at hr
      exact ⟨r, hr.1, hr.2, hk⟩
    · rintro ⟨r, hr, he, hk⟩
      exact ⟨r, List.mem_filter.mpr ⟨hr, he⟩, hk⟩
  · intro g hg
    unfold areaGroups at hg
    obtain ⟨k, hk, rfl⟩ := List.mem_map.mp hg
    rfl
  · intro r hr
    unfold areaEligible
    rcases hr with h | h <;> rw [h] <;> simp
  · have hfil : (sortDescBy (fun g => g.totalAreaCovered) (areaGroups runsDb)).filter
        (fun g => decide (g.userId ∈ users))
        = sortDescBy (fun g => g.totalAreaCovered) (areaGroups runsDb) := by
      rw [List.filter_eq_self]
      intro g hg
      have hmem : g ∈ areaGroups runsDb :=
        (sortDescBy_perm (fun g => g.totalAreaCovered) (areaGroups runsDb)).mem_iff.mp hg
      have : g.userId ∈ (areaGroups runsDb).map (fun g => g.userId) :=
        List.mem_map.mpr ⟨g, hmem, rfl⟩
      rw [hkeys, groupKeys_mem] at this
      obtain ⟨r, hrm, hrk⟩ := this
      rw [List.mem_filter] at hrm
      simpa using hrk ▸ hcov r hrm.1 hrm.2
    simp only [getAreaLeaderboard]
    rw [rankFrom_map_snd, hfil]

theorem getAreaLeaderboard_groups_by_owner_witness :
    (∀ r, r ∈ [⟨"r1", "u1", 0, 1, 1, 1, some "X", some 5, false⟩,
         ⟨"r2", "u2", 0, 1, 1, 1, some "Y", some 7, false⟩] → areaEligible r = true →
      RunRec.userId r ∈ ["u1", "u2"]) ∧
    ((areaGroups [⟨"r1", "u1", 0, 1, 1, 1, some "X", some 5, false⟩,
         ⟨"r2", "u2", 0, 1, 1, 1, some "Y", some 7, false⟩]).map
      (fun g => g.userId)).Nodup :=
  ⟨by decide,
   (getAreaLeaderboard_groups_by_owner
     [⟨"r1", "u1", 0, 1, 1, 1, some "X", some 5, false⟩,
      ⟨"r2", "u2", 0, 1, 1, 1, some "Y", some 7, false⟩] ["u1", "u2"] 1 10 (by decide)).1⟩

/-- C8 (confirmed): for every window the period computation returns, an empty
    selection makes `calculateStats` succeed with all totals zero and the
    period bounds populated from the window — not an error. -/
theorem calculateStats_empty_zero (store : List StatSummary) (runsDb : List RunRec)
    (userId periodType : String) (refDate now s e : Int)
    (h : getPeriodDates periodType refDate now = .ok (s, e))
    (hempty : selectRuns runsDb userId s e = []) :
    calculateStats store runsDb userId periodType refDate now =
      .ok ({ userId := userId, periodType := periodType, periodStart := s, periodEnd := e,
             totalDistance := 0, totalDuration := 0, totalRuns := 0, averageSpeed := 0,
             longestRun := 0, longestDuration := 0, fastestSpeed := 0 }, store) := by
  simp only [calculateStats, h, hempty]
  rfl

theorem calculateStats_empty_zero_witness :
    (getPeriodDates "daily" 0 0 = .ok (0, 86399999) ∧
      selectRuns [⟨"r1", "x", 5, 1, 1, 1, none, none, false⟩] "u" 0 86399999 = []) ∧
    calculateStats [] [⟨"r1", "x", 5, 1, 1, 1, none, none, false⟩] "u" "daily" 0 0 =
      .ok ({ userId := "u", periodType := "daily", periodStart := 0, periodEnd := 86399999,
             totalDistance := 0, totalDuration := 0, totalRuns := 0, averageSpeed := 0,
             longestRun := 0, longestDuration := 0, fastestSpeed := 0 }, []) :=
  ⟨⟨rfl, by decide⟩,
   calculateStats_empty_zero [] [⟨"r1", "x", 5, 1, 1, 1, none, none, false⟩]
     "u" "daily" 0 0 0 86399999 rfl (by decide)⟩

/-- C9 (confirmed): every store state reachable through the engine's upserts
    has at most one row per `(userId, periodType, periodStart)` key, and an
    upsert either inserts the full row or completely replaces the row with
    that key, leaving every other key untouched. -/
theorem statsStore_unique_key (store : List StatSummary) (h : ReachableStore store) :
    NoDupKeys store ∧
    ∀ row : StatSummary,
      findStats (updateOrCreateStats store row) (statsKey row) = some row ∧
      ∀ k : String × String × Int, k ≠ statsKey row →
        findStats (updateOrCreateStats store row) k = findStats store k := by
  constructor
  · induction h with
    | nil => exact List.Pairwise.nil
    | upsert st row hst ih => exact updateOrCreateStats_nodup row st ih
  · intro row
    exact ⟨updateOrCreateStats_find_self row store,
      fun k hk => updateOrCreateStats_find_other row k hk store⟩

theorem statsStore_unique_key_witness :
    ReachableStore (updateOrCreateStats [] ⟨"u", "weekly", 0, 1, 10, 20, 1, 2, 10, 20, 2⟩) ∧
    (NoDupKeys (updateOrCreateStats [] ⟨"u", "weekly", 0, 1, 10, 20, 1, 2, 10, 20, 2⟩) ∧
      ∀ row : StatSummary,
        findStats (updateOrCreateStats
            (updateOrCreateStats [] ⟨"u", "weekly", 0, 1, 10, 20, 1, 2, 10, 20, 2⟩) row)
          (statsKey row) = some row ∧
        ∀ k : String × String × Int, k ≠ statsKey row →
          findStats (updateOrCreateStats
              (updateOrCreateStats [] ⟨"u", "weekly", 0, 1, 10, 20, 1, 2, 10, 20, 2⟩) row) k
            = findStats
              (updateOrCreateStats [] ⟨"u", "weekly", 0, 1, 10, 20, 1, 2, 10, 20, 2⟩) k) :=
  ⟨ReachableStore.upsert [] _ ReachableStore.nil,
   statsStore_unique_key _ (ReachableStore.upsert [] _ ReachableStore.nil)⟩

/-- C10 (confirmed): on an empty selection `calculateStats` performs no store
    write — the returned store is the input store — so a previously persisted
    row for any key, including the very period being recomputed, remains
    exactly as it was (the stale aggregate is not zeroed or removed). -/
theorem calculateStats_empty_no_write (store : List StatSummary) (runsDb : List RunRec)
    (userId periodType : String) (refDate now s e : Int) (row : StatSummary)
    (h : getPeriodDates periodType refDate now = .ok (s, e))
    (hempty : selectRuns runsDb userId s e = [])
    (hrow : findStats store (statsKey row) = some row) :
    (∃ sum, calculateStats store runsDb userId periodType refDate now = .ok (sum, store)) ∧
    findStats store (statsKey row) = some row := by
  refine ⟨⟨{ userId := userId, periodType := periodType, periodStart := s, periodEnd := e,
             totalDistance := 0, totalDuration := 0, totalRuns := 0, averageSpeed := 0,
             longestRun := 0, longestDuration := 0, fastestSpeed := 0 }, ?_⟩, hrow⟩
  simp only [calculateStats, h, hempty]
  rfl

theorem calculateStats_empty_no_write_witness :
    (getPeriodDates "daily" 0 0 = .ok (0, 86399999) ∧
      selectRuns [⟨"r1", "x", 5, 1, 1, 1, none, none, false⟩] "u" 0 86399999 = [] ∧
      findStats [⟨"u", "daily", 0, 86399999, 5, 5, 1, 3, 5, 5, 1⟩]
        (statsKey ⟨"u", "daily", 0, 86399999, 5, 5, 1, 3, 5, 5, 1⟩) =
          some ⟨"u", "daily", 0, 86399999, 5, 5, 1, 3, 5, 5, 1⟩) ∧
    ((∃ sum, calculateStats [⟨"u", "daily", 0, 86399999, 5, 5, 1, 3, 5, 5, 1⟩]
        [⟨"r1", "x", 5, 1, 1, 1, none, none, false⟩] "u" "daily" 0 0 =
        .ok (sum, [⟨"u", "daily", 0, 86399999, 5, 5, 1, 3, 5, 5, 1⟩])) ∧
      findStats [⟨"u", "daily", 0, 86399999, 5, 5, 1, 3, 5, 5, 1⟩]
        (statsKey ⟨"u", "daily", 0, 86399999, 5, 5, 1, 3, 5, 5, 1⟩) =
          some ⟨"u", "daily", 0, 86399999, 5, 5, 1, 3, 5, 5, 1⟩) :=
  ⟨⟨rfl, by decide, by decide⟩,
   calculateStats_empty_no_write [⟨"u", "daily", 0, 86399999, 5, 5, 1, 3, 5, 5, 1⟩]
     [⟨"r1", "x", 5, 1, 1, 1, none, none, false⟩] "u" "daily" 0 0 0 86399999
     ⟨"u", "daily", 0, 86399999, 5, 5, 1, 3, 5, 5, 1⟩ rfl (by decide) (by decide)⟩

end Onekot
